import Mathlib

/-
Verification of the relativistic particle kinematics and collision engine
(particle.go, pool code, kinematics helpers) against its specification.

Floating-point numbers are embedded as real numbers.  Division by zero in ℝ
is 0 in Lean; in the Go source the corresponding expressions produce NaN and
are caught by explicit IsNaN fallbacks (CheckCollision) — in each such place
the ℝ convention yields the same value the fallback produces, as proved in
the degenerate-case lemmas below.  Wall-clock time (time.Time / time.Since)
is embedded by passing the current time `now : ℝ` explicitly.
-/

namespace RelAsteroids

/-- Vector represents a vector in 2D space (vector.go). -/
structure Vector where
  X : ℝ
  Y : ℝ

namespace Vector

/-- Add returns the sum of two vectors (vector.go). -/
def Add (v w : Vector) : Vector := ⟨v.X + w.X, v.Y + w.Y⟩

/-- Sub returns the difference between two vectors (vector.go). -/
def Sub (v w : Vector) : Vector := ⟨v.X - w.X, v.Y - w.Y⟩

/-- Scl returns the scaled vector (vector.go). -/
def Scl (v : Vector) (s : ℝ) : Vector := ⟨v.X * s, v.Y * s⟩

/-- Neg returns the negation of a vector (vector.go). -/
def Neg (v : Vector) : Vector := ⟨-v.X, -v.Y⟩

/-- Dot returns the dot product of two vectors (vector.go). -/
def Dot (v w : Vector) : ℝ := v.X * w.X + v.Y * w.Y

/-- Mag returns the magnitude of the vector (vector.go:
`math.Sqrt(v.X*v.X + v.Y*v.Y)`). -/
noncomputable def Mag (v : Vector) : ℝ := Real.sqrt (v.X * v.X + v.Y * v.Y)

/-- Unit returns the unit vector of the vector (vector.go:
`v.Scl(1 / v.Mag())`).  For the zero vector, Go divides 1 by 0 giving +Inf
and then multiplies by the zero components, giving NaN; the ℝ embedding
gives the zero vector, which matches the value the IsNaN fallbacks at the
only use sites (CheckCollision) substitute. -/
noncomputable def Unit (v : Vector) : Vector := v.Scl (1 / v.Mag)

open Classical in
/-- SetMag returns a vector in the same direction with the given magnitude
(vector.go): a zero-magnitude vector is returned unchanged, otherwise the
vector is scaled by `s / v.Mag()`. -/
noncomputable def SetMag (v : Vector) (s : ℝ) : Vector :=
  if v.Mag = 0 then v else v.Scl (s / v.Mag)

/-- Angle returns the angle of the vector in radians (vector.go:
`math.Atan2(v.Y, v.X)`), embedded as the complex argument of X + Y·i, the
principal-branch atan2 with `atan2 0 0 = 0` exactly as in Go. -/
noncomputable def Angle (v : Vector) : ℝ := Complex.arg ⟨v.X, v.Y⟩

/-- The zero vector `Vector{}`. -/
def zero : Vector := ⟨0, 0⟩

end Vector

/-- The scale factor of the physics engine (game constants:
`physScale float64 = 0.3`). -/
noncomputable def physScale : ℝ := 0.3

instance : Inhabited Vector := ⟨Vector.zero⟩

/-- Gamma returns the lorentz factor for the given velocity and speed of light
(utils code: `1.0 / math.Sqrt(1.0-(v*v)/(c*c))`). -/
noncomputable def Gamma (v c : ℝ) : ℝ := 1.0 / Real.sqrt (1.0 - (v * v) / (c * c))

/-- Particle is a particle in the simulation (particle.go). -/
structure Particle where
  Pos : Vector
  Rap : Vector
  Vel : Vector
  Acc : Vector
  AngPos : ℝ
  AngVel : ℝ
  Mass : ℝ
  Radius : ℝ
  Gamma : ℝ
  Clock : ℝ

instance : Inhabited Particle :=
  ⟨⟨Vector.zero, Vector.zero, Vector.zero, Vector.zero, 0, 0, 0, 0, 0, 0⟩⟩

namespace Particle

/-- Update updates the particle's parameters (particle.go `Particle.Update`):
the state written back is computed entirely from the pre-call state. -/
noncomputable def Update (p : Particle) (force frame : Vector) (c dt : ℝ) :
    Particle :=
  let relativeVelocity := p.Vel.Sub frame
  let gamma := RelAsteroids.Gamma relativeVelocity.Mag c
  let dtr := dt * gamma
  let acc := force.Scl (1 / p.Mass)
  let rap := p.Rap.Add ((p.Acc.Add acc).Scl (dtr / 2))
  let vel := p.Rap.SetMag (c * Real.tanh (p.Rap.Mag / c))
  let pos := (p.Pos.Add (p.Rap.Scl dtr)).Add (p.Acc.Scl (dtr * dtr / 2))
  { p with
    Gamma := gamma
    Clock := p.Clock + dtr
    AngPos := p.AngPos + p.AngVel * dtr
    Acc := acc
    Rap := rap
    Vel := vel
    Pos := pos }

/-- ScaledRadius returns the scaled radius of the particle (particle.go:
`p.Radius * physScale`).  The global constant `physScale` (= 0.3, in the
game constants) is threaded as an explicit parameter so the collision
theorems can be stated for any value; every concrete theorem instantiates
it at `physScale`. -/
def ScaledRadius (p : Particle) (physScale : ℝ) : ℝ := p.Radius * physScale

/-- CheckCollision returns true if the particle collides with another particle
whilst accounting for length contraction (particle.go).  The Go IsNaN
fallbacks fire exactly when `Unit` is taken of a zero vector; under the ℝ
embedding those expressions already evaluate to the fallback value. -/
noncomputable def CheckCollision (p q : Particle) (frame : Vector)
    (physScale : ℝ) : Prop :=
  let axis := (p.Pos.Sub q.Pos).Unit
  let pRadius := p.ScaledRadius physScale *
    (1 - ((p.Vel.Sub frame).Unit).Dot axis * (1 - 1 / p.Gamma))
  let qRadius := q.ScaledRadius physScale *
    (1 - ((q.Vel.Sub frame).Unit).Dot axis * (1 - 1 / q.Gamma))
  let distance := (p.Pos.Sub q.Pos).Mag
  distance < pRadius + qRadius

/-- Momentum returns the momentum of the particle (particle.go). -/
def Momentum (p : Particle) : Vector := p.Vel.Scl (p.Mass * p.Gamma)

/-- MassRel returns the relative mass of the particle (particle.go). -/
def MassRel (p : Particle) : ℝ := p.Mass * p.Gamma

end Particle

/-- UpdatePositions updates the positions of particles (particle.go): each
particle is advanced with zero force. -/
noncomputable def UpdatePositions (particles : List Particle) (frame : Vector)
    (c dt : ℝ) : List Particle :=
  particles.map (fun p => p.Update Vector.zero frame c dt)

open Classical in
/-- One body of the inner loop of SolveCollisions (particle.go lines 155-193):
if the particles at indices `i` and `j` collide, apply the positional
correction and the centre-of-momentum bounce and write both back. -/
noncomputable def solvePairStep (ps : List Particle) (i j : ℕ) (frame : Vector)
    (c physScale : ℝ) : List Particle :=
  let pi := ps.getD i default
  let pj := ps.getD j default
  if pi.CheckCollision pj frame physScale then
    let distance := (pi.Pos.Sub pj.Pos).Mag
    let axis := (pi.Pos.Sub pj.Pos).Unit
    let stepSize := pi.ScaledRadius physScale + pj.ScaledRadius physScale -
      distance
    let pi1 := { pi with Pos := pi.Pos.Add (axis.Scl (0.5 * stepSize)) }
    let pj1 := { pj with Pos := pj.Pos.Sub (axis.Scl (0.5 * stepSize)) }
    let momentum := pi1.Momentum.Add pj1.Momentum
    let CoM := momentum.Scl (1 / (pi1.MassRel + pj1.MassRel))
    let iVCoM := (pi1.Vel.Sub CoM).Scl (1 / (1 - pi1.Vel.Dot CoM / (c * c)))
    let jVCoM := (pj1.Vel.Sub CoM).Scl (1 / (1 - pj1.Vel.Dot CoM / (c * c)))
    let iv := ((iVCoM.Neg).Add CoM).Scl (1 / (1 - iVCoM.Dot CoM / (c * c)))
    let jv := ((jVCoM.Neg).Add CoM).Scl (1 / (1 - jVCoM.Dot CoM / (c * c)))
    let pi2 := { pi1 with
      Rap := iv.SetMag (c * Real.tanh (iv.Mag / c)), Vel := iv }
    let pj2 := { pj1 with
      Rap := jv.SetMag (c * Real.tanh (jv.Mag / c)), Vel := jv }
    (ps.set i pi2).set j pj2
  else ps

/-- SolveCollisions is used to handle collisions between particles
(particle.go): the double loop `i < j` over the slice, with updates from
earlier pairs visible to later pairs. -/
noncomputable def SolveCollisions (particles : List Particle) (frame : Vector)
    (c physScale : ℝ) : List Particle :=
  (List.range (particles.length - 1)).foldl
    (fun acc i =>
      (List.range' (i + 1) (particles.length - (i + 1))).foldl
        (fun acc2 j => solvePairStep acc2 i j frame c physScale) acc)
    particles

/-- Pool is a struct for storing particles (pool code): parallel arrays plus
pool-wide policy flags.  `time.Time` values are embedded as reals. -/
structure Pool where
  particles : List (Option Particle)
  active : List Bool
  lifetimes : List ℝ
  sprites : List ℤ
  maxLifetime : ℝ
  enforceLifetime : Bool
  fadeOverLifetime : Bool
  disableCollision : Bool

/-- NewPool returns a new pool of n particles (pool code). -/
def NewPool (n : ℕ) : Pool :=
  { particles := List.replicate n none
    active := List.replicate n false
    lifetimes := List.replicate n 0
    sprites := List.replicate n 0
    maxLifetime := 0
    enforceLifetime := false
    fadeOverLifetime := false
    disableCollision := false }

namespace Pool

/-- DisableCollision disables collision with other particles in the same pool
(pool code). -/
def DisableCollision (p : Pool) : Pool := { p with disableCollision := true }

/-- EnforceLifetime enforces the maxLifetime of particles (pool code). -/
def EnforceLifetime (p : Pool) (lifetime : ℝ) : Pool :=
  { p with enforceLifetime := true, maxLifetime := lifetime }

/-- FadeOverLifetime enables fading out particles over their lifetime
(pool code). -/
def FadeOverLifetime (p : Pool) : Pool := { p with fadeOverLifetime := true }

/-- The particle freshly constructed by Activate / appendNew (pool code):
velocity and acceleration zero, gamma 1, clock 0. -/
def freshParticle (pos rap : Vector) (angPos angVel mass radius : ℝ) :
    Particle :=
  { Pos := pos
    Rap := rap
    Vel := Vector.zero
    Acc := Vector.zero
    AngPos := angPos
    AngVel := angVel
    Mass := mass
    Radius := radius
    Gamma := 1
    Clock := 0 }

/-- The index of the first inactive slot as searched by Activate's loop
(pool code lines 152-172): the least `i` below the particles length whose
active flag is false. -/
def firstInactive (p : Pool) : Option ℕ :=
  (List.range p.particles.length).find? (fun i => !(p.active.getD i true))

/-- appendNew adds a new particle to the pool by resizing the pool, to be used
when the pool is full (pool code). -/
def appendNew (p : Pool) (now : ℝ) (pos rap : Vector)
    (angPos angVel mass radius : ℝ) (sprite : ℤ) : Pool :=
  { p with
    active := p.active ++ [true]
    lifetimes := p.lifetimes ++ [now]
    sprites := p.sprites ++ [sprite]
    particles := p.particles ++
      [some (freshParticle pos rap angPos angVel mass radius)] }

/-- Activate activates a particle with the given parameters (pool code):
fill the first inactive slot, else append a new one.  `now` stands for
`time.Now()`. -/
def Activate (p : Pool) (now : ℝ) (pos rap : Vector)
    (angPos angVel mass radius : ℝ) (sprite : ℤ) : Pool :=
  match p.firstInactive with
  | some i =>
    { p with
      active := p.active.set i true
      lifetimes := p.lifetimes.set i now
      sprites := p.sprites.set i sprite
      particles := p.particles.set i
        (some (freshParticle pos rap angPos angVel mass radius)) }
  | none => p.appendNew now pos rap angPos angVel mass radius sprite

/-- Deactivate deactivates a particle with the given index; returns true on
success (pool code). -/
def Deactivate (p : Pool) (i : ℕ) : Bool × Pool :=
  if p.active.getD i false then
    (true, { p with
      active := p.active.set i false
      particles := p.particles.set i none })
  else
    (false, p)

open Classical in
/-- One pass of the selection loop shared by Update and UpdateWith (pool code
lines 95-106 / 122-133) over a list of slot indices: an active slot past its
lifetime (when enforcement is on) is deactivated and skipped, every other
active slot's index is collected, in order. -/
noncomputable def collectActiveGo (now : ℝ) : Pool → List ℕ → Pool × List ℕ
  | q, [] => (q, [])
  | q, i :: rest =>
    if q.enforceLifetime = true ∧ q.active.getD i false = true ∧
        now - q.lifetimes.getD i 0 > q.maxLifetime then
      collectActiveGo now ((q.Deactivate i).2) rest
    else if q.active.getD i false = true then
      ((collectActiveGo now q rest).1, i :: (collectActiveGo now q rest).2)
    else collectActiveGo now q rest

/-- The selection loop of Update / UpdateWith run over all slot indices:
returns the pool after the lifetime deactivations together with the
collected indices of the live active slots, in increasing order. -/
noncomputable def collectActive (p : Pool) (now : ℝ) : Pool × List ℕ :=
  collectActiveGo now p (List.range p.particles.length)

/-- Write the batch-processed particles back into their slots: the k-th
collected index receives the k-th processed particle (in Go this is implicit
through pointer aliasing of the `activeParticles` slice). -/
def scatter (parts : List (Option Particle)) (idxs : List ℕ)
    (vals : List Particle) : List (Option Particle) :=
  (idxs.zip vals).foldl (fun acc iv => acc.set iv.1 (some iv.2)) parts

/-- The particles at the collected indices, in order (the `activeParticles`
slice of pool code). -/
def gather (p : Pool) (idxs : List ℕ) : List Particle :=
  idxs.map (fun i => (p.particles.getD i none).getD default)

/-- Update updates all particles in the pool (pool code): select the
still-live active slots, batch-integrate them, then solve collisions among
them unless collisions are disabled, writing results back into the slots. -/
noncomputable def Update (p : Pool) (now : ℝ) (frame : Vector)
    (c dt physScale : ℝ) : Pool :=
  let st := p.collectActive now
  let activeParticles := st.1.gather st.2
  let updated := UpdatePositions activeParticles frame c dt
  let solved :=
    if st.1.disableCollision then updated
    else SolveCollisions updated frame c physScale
  { st.1 with particles := scatter st.1.particles st.2 solved }

/-- UpdateWith updates all particles in the pool, plus solves collisions with
the given particles (pool code): as Update, but the collision pass runs on the
integrated pool particles with the external particles appended; only the pool
particles are written back (the external ones belong to the caller). -/
noncomputable def UpdateWith (p : Pool) (now : ℝ) (frame : Vector)
    (c dt physScale : ℝ) (others : List Particle) : Pool :=
  let st := p.collectActive now
  let activeParticles := st.1.gather st.2
  let updated := UpdatePositions activeParticles frame c dt
  let withOthers := updated ++ others
  let solved :=
    if st.1.disableCollision then updated
    else SolveCollisions withOthers frame c physScale
  { st.1 with particles := scatter st.1.particles st.2 solved }

/-- Reset clears the pool (pool code): every active slot is deactivated, its
particle cleared, its lifetime and sprite zeroed. -/
def Reset (p : Pool) : Pool :=
  (List.range p.particles.length).foldl
    (fun q i =>
      if q.active.getD i false = true then
        { q with
          particles := q.particles.set i none
          active := q.active.set i false
          lifetimes := q.lifetimes.set i 0
          sprites := q.sprites.set i 0 }
      else q)
    p

end Pool

/-! ### Helper lemmas about the tanh velocity mapping and vector magnitudes -/

lemma tanh_lt_one (x : ℝ) : Real.tanh x < 1 := by
  rw [Real.tanh_eq_sinh_div_cosh, div_lt_one (Real.cosh_pos x)]
  exact Real.sinh_lt_cosh x

lemma neg_one_lt_tanh (x : ℝ) : -1 < Real.tanh x := by
  have h := tanh_lt_one (-x)
  rw [Real.tanh_neg] at h
  linarith

lemma tanh_nonneg {x : ℝ} (hx : 0 ≤ x) : 0 ≤ Real.tanh x := by
  rw [Real.tanh_eq_sinh_div_cosh]
  apply div_nonneg _ (Real.cosh_pos x).le
  rcases eq_or_lt_of_le hx with h | h
  · simp [← h]
  · exact (Real.sinh_pos_iff.mpr h).le

lemma tanh_pos {x : ℝ} (hx : 0 < x) : 0 < Real.tanh x := by
  rw [Real.tanh_eq_sinh_div_cosh]
  exact div_pos (Real.sinh_pos_iff.mpr hx) (Real.cosh_pos x)

namespace Vector

lemma Mag_nonneg (v : Vector) : 0 ≤ v.Mag := Real.sqrt_nonneg _

lemma mul_self_Mag (v : Vector) : v.Mag * v.Mag = v.X * v.X + v.Y * v.Y :=
  Real.mul_self_sqrt (add_nonneg (mul_self_nonneg _) (mul_self_nonneg _))

lemma Mag_eq_zero_iff (v : Vector) : v.Mag = 0 ↔ v.X = 0 ∧ v.Y = 0 := by
  unfold Mag
  rw [Real.sqrt_eq_zero (add_nonneg (mul_self_nonneg _) (mul_self_nonneg _))]
  constructor
  · intro h
    constructor <;> nlinarith [mul_self_nonneg v.X, mul_self_nonneg v.Y]
  · rintro ⟨hx, hy⟩
    rw [hx, hy]; ring

lemma Mag_zero : (Vector.zero).Mag = 0 := by
  simp [Mag, zero]

lemma SetMag_of_Mag_eq_zero {v : Vector} (h : v.Mag = 0) (m : ℝ) :
    v.SetMag m = v := by
  unfold SetMag
  rw [if_pos h]

lemma Mag_SetMag_of_ne {v : Vector} (h : v.Mag ≠ 0) (m : ℝ) :
    (v.SetMag m).Mag = |m| := by
  have hpos : 0 < v.Mag := lt_of_le_of_ne (Mag_nonneg v) (Ne.symm h)
  have hsq : v.Mag * v.Mag = v.X * v.X + v.Y * v.Y := mul_self_Mag v
  have harg : (v.X * (m / v.Mag)) * (v.X * (m / v.Mag)) +
      (v.Y * (m / v.Mag)) * (v.Y * (m / v.Mag)) = m * m := by
    field_simp
    nlinarith [hsq]
  unfold SetMag
  rw [if_neg h]
  show Real.sqrt _ = |m|
  simp only [Scl]
  rw [harg, Real.sqrt_mul_self_eq_abs]

lemma Sub_self (v : Vector) : v.Sub v = Vector.zero := by
  simp [Sub, zero]

end Vector

/-- The velocity written back by Particle.Update, as a projection. -/
lemma update_Vel (p : Particle) (force frame : Vector) (c dt : ℝ) :
    (p.Update force frame c dt).Vel =
      p.Rap.SetMag (c * Real.tanh (p.Rap.Mag / c)) := rfl

/-- The rapidity written back by Particle.Update, as a projection. -/
lemma update_Rap (p : Particle) (force frame : Vector) (c dt : ℝ) :
    (p.Update force frame c dt).Rap =
      p.Rap.Add ((p.Acc.Add (force.Scl (1 / p.Mass))).Scl
        (dt * RelAsteroids.Gamma ((p.Vel.Sub frame).Mag) c / 2)) := rfl

/-- The gamma written back by Particle.Update, as a projection. -/
lemma update_Gamma (p : Particle) (force frame : Vector) (c dt : ℝ) :
    (p.Update force frame c dt).Gamma =
      RelAsteroids.Gamma ((p.Vel.Sub frame).Mag) c := rfl

/-- The magnitude of the tanh-mapped velocity is below `c` for every rapidity:
the enforcement mechanism of the sub-light invariant. -/
lemma Mag_SetMag_tanh_lt {c : ℝ} (hc : 0 < c) (v : Vector) :
    (v.SetMag (c * Real.tanh (v.Mag / c))).Mag < c := by
  by_cases h : v.Mag = 0
  · rw [Vector.SetMag_of_Mag_eq_zero h, h]
    exact hc
  · rw [Vector.Mag_SetMag_of_ne h]
    have hr : 0 ≤ v.Mag / c := div_nonneg (Vector.Mag_nonneg v) hc.le
    have h1 : 0 ≤ Real.tanh (v.Mag / c) := tanh_nonneg hr
    have h2 : Real.tanh (v.Mag / c) < 1 := tanh_lt_one _
    rw [abs_of_nonneg (mul_nonneg hc.le h1)]
    nlinarith

/-- Evaluation helper: the square root of a concrete perfect square. -/
lemma sqrt_eval {a b : ℝ} (hb : 0 ≤ b) (h : b * b = a) : Real.sqrt a = b := by
  rw [← h]
  exact Real.sqrt_mul_self hb

/-- On a two-element list, SolveCollisions is exactly one pair step. -/
lemma SolveCollisions_pair (a b : Particle) (f : Vector) (c φ : ℝ) :
    SolveCollisions [a, b] f c φ = solvePairStep [a, b] 0 1 f c φ := rfl

/-- Symbolic execution of the pair step on a colliding two-element list:
the first output particle's velocity is the centre-of-momentum bounce image
of the first input particle's velocity. -/
lemma solvePairStep_fst_Vel (a b : Particle) (f : Vector) (c φ : ℝ)
    (h : a.CheckCollision b f φ) :
    ((solvePairStep [a, b] 0 1 f c φ).getD 0 default).Vel =
      (let CoM := (a.Momentum.Add b.Momentum).Scl (1 / (a.MassRel + b.MassRel))
       let iVCoM := (a.Vel.Sub CoM).Scl (1 / (1 - a.Vel.Dot CoM / (c * c)))
       ((iVCoM.Neg).Add CoM).Scl (1 / (1 - iVCoM.Dot CoM / (c * c)))) := by
  simp only [solvePairStep, List.getD_cons_zero, List.getD_cons_succ]
  rw [if_pos h]
  rfl

/-- Symbolic execution of the pair step on a colliding two-element list:
the rapidity and velocity stored into each output particle, and the corrected
positions. -/
lemma solvePairStep_eval (a b : Particle) (f : Vector) (c φ : ℝ)
    (h : a.CheckCollision b f φ) :
    solvePairStep [a, b] 0 1 f c φ =
      (let distance := (a.Pos.Sub b.Pos).Mag
       let axis := (a.Pos.Sub b.Pos).Unit
       let stepSize := a.ScaledRadius φ + b.ScaledRadius φ - distance
       let CoM := (a.Momentum.Add b.Momentum).Scl (1 / (a.MassRel + b.MassRel))
       let iVCoM := (a.Vel.Sub CoM).Scl (1 / (1 - a.Vel.Dot CoM / (c * c)))
       let jVCoM := (b.Vel.Sub CoM).Scl (1 / (1 - b.Vel.Dot CoM / (c * c)))
       let iv := ((iVCoM.Neg).Add CoM).Scl (1 / (1 - iVCoM.Dot CoM / (c * c)))
       let jv := ((jVCoM.Neg).Add CoM).Scl (1 / (1 - jVCoM.Dot CoM / (c * c)))
       [{ a with Pos := a.Pos.Add (axis.Scl (0.5 * stepSize))
                 Rap := iv.SetMag (c * Real.tanh (iv.Mag / c))
                 Vel := iv },
        { b with Pos := b.Pos.Sub (axis.Scl (0.5 * stepSize))
                 Rap := jv.SetMag (c * Real.tanh (jv.Mag / c))
                 Vel := jv }]) := by
  simp only [solvePairStep, List.getD_cons_zero, List.getD_cons_succ]
  rw [if_pos h]
  rfl

/-! ### List getD helper lemmas -/

lemma getD_set_lt {α : Type} (l : List α) (i : ℕ) (x d : α)
    (h : i < l.length) : (l.set i x).getD i d = x := by
  rw [List.getD, List.get?_set_eq_of_lt _ h]
  cases l.get? i <;> simp

lemma getD_set_ne {α : Type} (l : List α) {i j : ℕ} (x d : α)
    (h : i ≠ j) : (l.set i x).getD j d = l.getD j d := by
  rw [List.getD, List.get?_set_ne _ _ h, ← List.getD]

lemma getD_append_lt {α : Type} (l l2 : List α) (i : ℕ) (d : α)
    (h : i < l.length) : (l ++ l2).getD i d = l.getD i d := by
  rw [List.getD, List.get?_append h, ← List.getD]

lemma getD_concat_length {α : Type} (l : List α) (x d : α) :
    (l ++ [x]).getD l.length d = x := by
  rw [List.getD, List.get?_concat_length]
  rfl

lemma getD_of_le {α : Type} (l : List α) (i : ℕ) (d : α)
    (h : l.length ≤ i) : l.getD i d = d := by
  rw [List.getD, List.get?_eq_none.mpr h]
  rfl

/-! ### Evaluation helpers for concrete vectors -/

/-- Magnitude of a component literal. -/
lemma Mag_mk (x y : ℝ) : (Vector.mk x y).Mag = Real.sqrt (x * x + y * y) := rfl

/-- Unit of a component literal once the magnitude is known. -/
lemma Unit_eval {x y m : ℝ} (h : (Vector.mk x y).Mag = m) :
    (Vector.mk x y).Unit = Vector.mk (x / m) (y / m) := by
  unfold Vector.Unit
  rw [h]
  show Vector.mk (x * (1 / m)) (y * (1 / m)) = _
  rw [mul_one_div, mul_one_div]

/-- SetMag of a component literal once the (nonzero) magnitude is known. -/
lemma SetMag_eval {x y m : ℝ} (h : (Vector.mk x y).Mag = m) (hm : m ≠ 0)
    (s : ℝ) :
    (Vector.mk x y).SetMag s = Vector.mk (x * (s / m)) (y * (s / m)) := by
  unfold Vector.SetMag
  rw [h, if_neg hm]
  rfl

/-! ### Behaviour of Pool.Activate -/

/-- When an inactive slot exists, Activate fills it. -/
lemma Activate_fill (p : Pool) (now : ℝ) (pos rap : Vector)
    (angPos angVel mass radius : ℝ) (sprite : ℤ) {i : ℕ}
    (h : p.firstInactive = some i) :
    p.Activate now pos rap angPos angVel mass radius sprite =
      { p with
        active := p.active.set i true
        lifetimes := p.lifetimes.set i now
        sprites := p.sprites.set i sprite
        particles := p.particles.set i
          (some (Pool.freshParticle pos rap angPos angVel mass radius)) } := by
  unfold Pool.Activate
  rw [h]

/-- When no inactive slot exists, Activate appends a new one. -/
lemma Activate_append (p : Pool) (now : ℝ) (pos rap : Vector)
    (angPos angVel mass radius : ℝ) (sprite : ℤ)
    (h : p.firstInactive = none) :
    p.Activate now pos rap angPos angVel mass radius sprite =
      p.appendNew now pos rap angPos angVel mass radius sprite := by
  unfold Pool.Activate
  rw [h]

/-- A slot whose contents Activate changed holds the fresh particle. -/
lemma Activate_changed_slot (p : Pool) (now : ℝ) (pos rap : Vector)
    (angPos angVel mass radius : ℝ) (sprite : ℤ) (i : ℕ) (q : Particle)
    (hnew : ((p.Activate now pos rap angPos angVel mass radius
      sprite).particles.getD i none) = some q)
    (hold : (p.particles.getD i none) ≠ some q) :
    q = Pool.freshParticle pos rap angPos angVel mass radius := by
  cases hfi : p.firstInactive with
  | some k =>
    rw [Activate_fill p now pos rap angPos angVel mass radius sprite hfi]
      at hnew
    simp only at hnew
    rcases eq_or_ne k i with hki | hki
    · subst hki
      rcases lt_or_le k p.particles.length with hlt | hle
      · rw [getD_set_lt _ _ _ _ hlt] at hnew
        exact (Option.some_inj.mp hnew).symm
      · rw [List.set_eq_of_length_le hle] at hnew
        exact absurd hnew hold
    · rw [getD_set_ne _ _ _ hki] at hnew
      exact absurd hnew hold
  | none =>
    rw [Activate_append p now pos rap angPos angVel mass radius sprite hfi]
      at hnew
    simp only [Pool.appendNew] at hnew
    rcases lt_or_le i p.particles.length with hlt | hle
    · rw [getD_append_lt _ _ _ _ hlt] at hnew
      exact absurd hnew hold
    · rcases eq_or_ne i p.particles.length with hie | hie
      · subst hie
        rw [getD_concat_length] at hnew
        exact (Option.some_inj.mp hnew).symm
      · rw [getD_of_le _ _ _ (by simp; omega)] at hnew
        exact absurd hnew (by simp)

/-! ### Claim C1 -/

/-- A particle moving right at 9/10 of c=1, just right of the origin. -/
noncomputable def pC1a : Particle :=
  { Pos := ⟨1/10, 0⟩, Rap := Vector.zero, Vel := ⟨9/10, 0⟩, Acc := Vector.zero
    AngPos := 0, AngVel := 0, Mass := 1, Radius := 1, Gamma := 1, Clock := 0 }

/-- A particle moving up at 9/10 of c=1, at the origin. -/
noncomputable def pC1b : Particle :=
  { Pos := Vector.zero, Rap := Vector.zero, Vel := ⟨0, 9/10⟩
    Acc := Vector.zero, AngPos := 0, AngVel := 0, Mass := 1, Radius := 1
    Gamma := 1, Clock := 0 }

lemma pC1_collides : pC1a.CheckCollision pC1b Vector.zero physScale := by
  have e1 : pC1a.Pos.Sub pC1b.Pos = Vector.mk (1/10) 0 := by
    show Vector.mk (1/10 - 0 : ℝ) (0 - 0 : ℝ) = _
    norm_num
  have e2 : (Vector.mk (1/10 : ℝ) 0).Mag = 1/10 := by
    rw [Mag_mk]; exact sqrt_eval (by norm_num) (by norm_num)
  have e3 : (Vector.mk (1/10 : ℝ) 0).Unit = Vector.mk 1 0 := by
    rw [Unit_eval e2]
    norm_num
  have e4 : (Vector.mk (9/10 : ℝ) 0).Mag = 9/10 := by
    rw [Mag_mk]; exact sqrt_eval (by norm_num) (by norm_num)
  have e5 : (Vector.mk (9/10 : ℝ) 0).Unit = Vector.mk 1 0 := by
    rw [Unit_eval e4]
    norm_num
  have e6 : (Vector.mk (0 : ℝ) (9/10)).Mag = 9/10 := by
    rw [Mag_mk]; exact sqrt_eval (by norm_num) (by norm_num)
  have e7 : (Vector.mk (0 : ℝ) (9/10)).Unit = Vector.mk 0 1 := by
    rw [Unit_eval e6]
    norm_num
  have ea : pC1a.Vel.Sub Vector.zero = Vector.mk (9/10) 0 := by
    show Vector.mk (9/10 - 0 : ℝ) (0 - 0 : ℝ) = _
    norm_num
  have eb : pC1b.Vel.Sub Vector.zero = Vector.mk 0 (9/10) := by
    show Vector.mk (0 - 0 : ℝ) (9/10 - 0 : ℝ) = _
    norm_num
  show (pC1a.Pos.Sub pC1b.Pos).Mag < _
  rw [e1, e2, ea, eb, e3, e5, e7]
  show (1/10 : ℝ) < 1 * physScale * (1 - (1 * 1 + 0 * 0) * (1 - 1/1)) +
    1 * physScale * (1 - (0 * 1 + 1 * 0) * (1 - 1/1))
  norm_num [physScale]

/-- Claim C1 is false as stated: with c = 1 and two particles whose speeds are
strictly below c (both 9/10, one moving along x, one along y, equal unit
masses), SolveCollisions resolves the colliding pair and assigns the first
particle a velocity of magnitude strictly greater than c = 1.  The approximate
2-dimensional velocity transformation used by the resolver does not keep
speeds below c. -/
theorem claim_C1_counterexample :
    pC1a.Vel.Mag < 1 ∧ pC1b.Vel.Mag < 1 ∧
    1 < (((SolveCollisions [pC1a, pC1b] Vector.zero 1 physScale).getD 0
      default).Vel).Mag := by
  refine ⟨?_, ?_, ?_⟩
  · show (Vector.mk (9/10 : ℝ) 0).Mag < 1
    rw [Mag_mk, sqrt_eval (show (0:ℝ) ≤ 9/10 by norm_num) (by norm_num)]
    norm_num
  · show (Vector.mk (0 : ℝ) (9/10)).Mag < 1
    rw [Mag_mk, sqrt_eval (show (0:ℝ) ≤ 9/10 by norm_num) (by norm_num)]
    norm_num
  · rw [SolveCollisions_pair, solvePairStep_fst_Vel _ _ _ _ _ pC1_collides]
    simp only [Particle.Momentum, Particle.MassRel, Vector.Add, Vector.Sub,
      Vector.Scl, Vector.Neg, Vector.Dot, pC1a, pC1b, Vector.zero]
    rw [Mag_mk]
    exact Real.lt_sqrt_of_sq_lt (by norm_num)

/-- Claim C1 (amended): for every particle and every speed of light c > 0,
the velocity written by Particle.Update has magnitude strictly below c
(it is the tanh image of the pre-update rapidity), and the particle written
into a slot by Pool.Activate has velocity of magnitude 0, hence below c.
The third operation of the original claim, SolveCollisions, does NOT preserve
the bound (see the counterexample). -/
theorem claim_C1_amended :
    (∀ (p : Particle) (force frame : Vector) (c dt : ℝ), 0 < c →
      ((p.Update force frame c dt).Vel).Mag < c) ∧
    (∀ (p : Pool) (now : ℝ) (pos rap : Vector)
      (angPos angVel mass radius : ℝ) (sprite : ℤ) (i : ℕ) (q : Particle)
      (c : ℝ), 0 < c →
      ((p.Activate now pos rap angPos angVel mass radius sprite).particles.getD
        i none) = some q →
      (p.particles.getD i none) ≠ some q →
      q.Vel.Mag < c) := by
  constructor
  · intro p force frame c dt hc
    rw [update_Vel]
    exact Mag_SetMag_tanh_lt hc _
  · intro p now pos rap angPos angVel mass radius sprite i q c hc hnew hold
    rw [Activate_changed_slot p now pos rap angPos angVel mass radius sprite
      i q hnew hold]
    show (Vector.zero).Mag < c
    rw [Vector.Mag_zero]
    exact hc

/-- Witness for claim C1 (amended) at concrete inputs. -/
theorem claim_C1_witness :
    0 < (1 : ℝ) ∧
    (((default : Particle).Update Vector.zero Vector.zero 1 1).Vel).Mag < 1 :=
  ⟨by norm_num,
   claim_C1_amended.1 default Vector.zero Vector.zero 1 1 (by norm_num)⟩

/-! ### Claim C2 -/

/-- The Lorentz factor at zero relative speed is exactly 1. -/
lemma Gamma_zero (c : ℝ) : Gamma 0 c = 1 := by
  unfold Gamma
  norm_num

/-- A unit-mass particle at rest at the origin with gamma 1. -/
noncomputable def pC2 : Particle :=
  { Pos := Vector.zero, Rap := Vector.zero, Vel := Vector.zero
    Acc := Vector.zero, AngPos := 0, AngVel := 0, Mass := 1, Radius := 1
    Gamma := 1, Clock := 0 }

lemma pC2_update_Rap :
    (pC2.Update (Vector.mk 1 0) Vector.zero 1 2).Rap = Vector.mk 1 0 := by
  rw [update_Rap]
  have h0 : (pC2.Vel.Sub Vector.zero).Mag = 0 := by
    show (Vector.mk (0 - 0 : ℝ) (0 - 0 : ℝ)).Mag = 0
    rw [Mag_mk]
    norm_num
  rw [h0, Gamma_zero]
  show Vector.mk ((0 : ℝ) + (0 + 1 * (1 / 1)) * (2 * 1 / 2))
    ((0 : ℝ) + (0 + 0 * (1 / 1)) * (2 * 1 / 2)) = Vector.mk 1 0
  norm_num

lemma pC2_update_Vel :
    (pC2.Update (Vector.mk 1 0) Vector.zero 1 2).Vel = Vector.zero := by
  rw [update_Vel]
  exact Vector.SetMag_of_Mag_eq_zero
    (show (pC2.Rap).Mag = 0 by
      show Vector.zero.Mag = 0
      exact Vector.Mag_zero) _

/-- Claim C2 is false as stated: starting a unit-mass particle at rest
(rapidity zero) and applying force (1,0) with c = 1, dt = 2, the updated
rapidity is (1,0) but the stored velocity is (0,0), not the tanh image
c·tanh(|rapidity'|/c) of the NEW rapidity (which would be (tanh 1, 0)):
Particle.Update computes the velocity from the pre-update rapidity. -/
theorem claim_C2_counterexample :
    (pC2.Update (Vector.mk 1 0) Vector.zero 1 2).Vel ≠
      ((pC2.Update (Vector.mk 1 0) Vector.zero 1 2).Rap).SetMag
        (1 * Real.tanh
          (((pC2.Update (Vector.mk 1 0) Vector.zero 1 2).Rap).Mag / 1)) := by
  rw [pC2_update_Rap, pC2_update_Vel]
  have hm : (Vector.mk (1 : ℝ) 0).Mag = 1 := by
    rw [Mag_mk]
    exact sqrt_eval (by norm_num) (by norm_num)
  rw [hm, SetMag_eval hm one_ne_zero]
  intro hcontra
  have hX : (0 : ℝ) = 1 * (1 * Real.tanh (1 / 1) / 1) :=
    congrArg Vector.X hcontra
  have ht : (0 : ℝ) < Real.tanh (1 / 1) := tanh_pos (by norm_num)
  rw [one_mul, div_one, one_mul] at hX
  linarith

/-- Claim C2 (amended): after Particle.Update the stored velocity is
c·tanh(|rapidity|/c) in the direction of the PRE-update rapidity (the field
value before the call), while the stored rapidity is the velocity-Verlet
update rapidity + (prevAcc + force/mass)·dtr/2; the velocity is not
recomputed from the new rapidity. -/
theorem claim_C2_amended (p : Particle) (force frame : Vector) (c dt : ℝ) :
    (p.Update force frame c dt).Vel =
      p.Rap.SetMag (c * Real.tanh (p.Rap.Mag / c)) ∧
    (p.Update force frame c dt).Rap =
      p.Rap.Add ((p.Acc.Add (force.Scl (1 / p.Mass))).Scl
        (dt * RelAsteroids.Gamma ((p.Vel.Sub frame).Mag) c / 2)) :=
  ⟨update_Vel p force frame c dt, update_Rap p force frame c dt⟩

/-! ### Claim C3 -/

/-- Magnitude is symmetric in the order of subtraction. -/
lemma Mag_Sub_comm (v w : Vector) : (v.Sub w).Mag = (w.Sub v).Mag := by
  unfold Vector.Mag Vector.Sub
  ring_nf

/-- Claim C3 (amended): the collision predicate is symmetric whenever both
stored Lorentz factors are 1 (no length contraction); with unequal
contraction terms it is asymmetric (see the counterexample). -/
theorem claim_C3_amended (p q : Particle) (frame : Vector) (φ : ℝ)
    (hp : p.Gamma = 1) (hq : q.Gamma = 1) :
    (p.CheckCollision q frame φ ↔ q.CheckCollision p frame φ) := by
  show (p.Pos.Sub q.Pos).Mag < _ ↔ (q.Pos.Sub p.Pos).Mag < _
  rw [hp, hq, Mag_Sub_comm]
  norm_num
  rw [add_comm]

/-- A particle with gamma 1 for the C3 witness. -/
noncomputable def pC3w : Particle :=
  { Pos := Vector.zero, Rap := Vector.zero, Vel := Vector.zero
    Acc := Vector.zero, AngPos := 0, AngVel := 0, Mass := 1, Radius := 1
    Gamma := 1, Clock := 0 }

/-- Witness for claim C3 (amended) at a concrete gamma-1 pair and the
program's physScale = 0.3. -/
theorem claim_C3_witness :
    pC3w.Gamma = 1 ∧
    (pC3w.CheckCollision pC3w Vector.zero physScale ↔
      pC3w.CheckCollision pC3w Vector.zero physScale) :=
  ⟨rfl, claim_C3_amended pC3w pC3w Vector.zero physScale rfl rfl⟩

/-- A particle at (3/5,0) moving right at √3/2 of c=1, with the matching
Lorentz factor 2. -/
noncomputable def pC3a : Particle :=
  { Pos := ⟨3/5, 0⟩, Rap := Vector.zero, Vel := ⟨Real.sqrt 3 / 2, 0⟩
    Acc := Vector.zero, AngPos := 0, AngVel := 0, Mass := 1, Radius := 1
    Gamma := 2, Clock := 0 }

/-- A particle at rest at the origin with gamma 1. -/
noncomputable def pC3b : Particle :=
  { Pos := Vector.zero, Rap := Vector.zero, Vel := Vector.zero
    Acc := Vector.zero, AngPos := 0, AngVel := 0, Mass := 1, Radius := 1
    Gamma := 1, Clock := 0 }

/-- Claim C3 is false as stated: for the pair pC3a (moving right at √3/2 c,
gamma 2) and pC3b (at rest, gamma 1) at distinct positions (3/5,0) and (0,0),
with the program's physScale = 0.3, CheckCollision(pC3a, pC3b) is false while
CheckCollision(pC3b, pC3a) is true: flipping the argument order flips the
collision axis, which flips the sign of the length-contraction correction of
each radius. -/
theorem claim_C3_counterexample :
    pC3a.Pos ≠ pC3b.Pos ∧
    ¬ pC3a.CheckCollision pC3b Vector.zero physScale ∧
    pC3b.CheckCollision pC3a Vector.zero physScale := by
  have s3pos : (0 : ℝ) < Real.sqrt 3 := Real.sqrt_pos.mpr (by norm_num)
  have s3sq : Real.sqrt 3 * Real.sqrt 3 = 3 :=
    Real.mul_self_sqrt (by norm_num)
  have e1 : pC3a.Pos.Sub pC3b.Pos = Vector.mk (3/5) 0 := by
    show Vector.mk (3/5 - 0 : ℝ) (0 - 0 : ℝ) = _
    norm_num
  have e1' : pC3b.Pos.Sub pC3a.Pos = Vector.mk (-(3/5)) 0 := by
    show Vector.mk (0 - 3/5 : ℝ) (0 - 0 : ℝ) = _
    norm_num
  have e2 : (Vector.mk (3/5 : ℝ) 0).Mag = 3/5 := by
    rw [Mag_mk]; exact sqrt_eval (by norm_num) (by norm_num)
  have e2' : (Vector.mk (-(3/5) : ℝ) 0).Mag = 3/5 := by
    rw [Mag_mk]; exact sqrt_eval (by norm_num) (by norm_num)
  have e3 : (Vector.mk (3/5 : ℝ) 0).Unit = Vector.mk 1 0 := by
    rw [Unit_eval e2]; norm_num
  have e3' : (Vector.mk (-(3/5) : ℝ) 0).Unit = Vector.mk (-1) 0 := by
    rw [Unit_eval e2']; norm_num
  have ev : pC3a.Vel.Sub Vector.zero = Vector.mk (Real.sqrt 3 / 2) 0 := by
    show Vector.mk (Real.sqrt 3 / 2 - 0 : ℝ) (0 - 0 : ℝ) = _
    norm_num
  have ev2 : (Vector.mk (Real.sqrt 3 / 2) 0).Mag = Real.sqrt 3 / 2 := by
    rw [Mag_mk]
    exact sqrt_eval (by positivity) (by nlinarith [s3sq])
  have ev3 : (Vector.mk (Real.sqrt 3 / 2) 0).Unit = Vector.mk 1 0 := by
    rw [Unit_eval ev2]
    have : Real.sqrt 3 / 2 ≠ 0 := by positivity
    rw [div_self this]
    norm_num
  have eb : pC3b.Vel.Sub Vector.zero = Vector.mk 0 0 := by
    show Vector.mk (0 - 0 : ℝ) (0 - 0 : ℝ) = _
    norm_num
  have eb2 : (Vector.mk (0:ℝ) 0).Mag = 0 := by
    rw [Mag_mk]; norm_num
  have eb3 : (Vector.mk (0:ℝ) 0).Unit = Vector.mk 0 0 := by
    rw [Unit_eval eb2]; norm_num
  refine ⟨?_, ?_, ?_⟩
  · intro hcontra
    have := congrArg Vector.X hcontra
    norm_num [pC3a, pC3b, Vector.zero] at this
  · show ¬ ((pC3a.Pos.Sub pC3b.Pos).Mag < _)
    rw [e1, e2, ev, eb, e3, ev3, eb3]
    show ¬ ((3/5 : ℝ) < 1 * physScale * (1 - (1 * 1 + 0 * 0) * (1 - 1/2)) +
      1 * physScale * (1 - (0 * 1 + 0 * 0) * (1 - 1/1)))
    norm_num [physScale]
  · show (pC3b.Pos.Sub pC3a.Pos).Mag < _
    rw [e1', e2', ev, eb, e3', ev3, eb3]
    show (3/5 : ℝ) < 1 * physScale * (1 - (0 * (-1) + 0 * 0) * (1 - 1/1)) +
      1 * physScale * (1 - (1 * (-1) + 0 * 0) * (1 - 1/2))
    norm_num [physScale]

/-! ### Claim C4 -/

/-- Modelled from the spec: the inverse of the tanh mapping that §4.4 step 7
of the spec claims is applied (`atanh`); defined only to state that claim,
the code itself applies `tanh`. -/
noncomputable def atanhSpec (x : ℝ) : ℝ := Real.log ((1 + x) / (1 - x)) / 2

lemma tanh_half_eq :
    Real.tanh (1/2) = (Real.exp 1 - 1) / (Real.exp 1 + 1) := by
  rw [Real.tanh_eq_sinh_div_cosh, Real.sinh_eq, Real.cosh_eq]
  have hp : (0:ℝ) < Real.exp (1/2) := Real.exp_pos _
  have h2 : Real.exp (1/2 : ℝ) * Real.exp (1/2 : ℝ) = Real.exp 1 := by
    rw [← Real.exp_add]; norm_num
  have he1 : (0:ℝ) < Real.exp 1 := Real.exp_pos 1
  rw [Real.exp_neg]
  field_simp
  nlinarith [h2, hp]

lemma tanh_half_lt_half : Real.tanh (1/2) < 1/2 := by
  rw [tanh_half_eq]
  have he1 : (0:ℝ) < Real.exp 1 := Real.exp_pos 1
  rw [div_lt_iff (by linarith)]
  have := Real.exp_one_lt_d9
  nlinarith

lemma half_lt_atanhSpec_half : 1/2 < atanhSpec (1/2) := by
  unfold atanhSpec
  have h3 : ((1:ℝ) + 1/2) / (1 - 1/2) = 3 := by norm_num
  rw [h3]
  have hlog : (1:ℝ) < Real.log 3 := by
    rw [show (1:ℝ) = Real.log (Real.exp 1) from (Real.log_exp 1).symm]
    apply Real.log_lt_log (Real.exp_pos 1)
    have := Real.exp_one_lt_d9
    norm_num at this ⊢
    linarith
  linarith

/-- A particle at (1/2,0) moving left-to-right at c/2, stored gamma 3,
mass 1/3 (so relativistic mass 1). -/
noncomputable def pC4a : Particle :=
  { Pos := ⟨1/2, 0⟩, Rap := Vector.zero, Vel := ⟨1/2, 0⟩
    Acc := Vector.zero, AngPos := 0, AngVel := 0, Mass := 1/3, Radius := 1
    Gamma := 3, Clock := 0 }

/-- A particle at the origin moving right-to-left at c/2, stored gamma 2,
mass 1/2 (so relativistic mass 1). -/
noncomputable def pC4b : Particle :=
  { Pos := Vector.zero, Rap := Vector.zero, Vel := ⟨-1/2, 0⟩
    Acc := Vector.zero, AngPos := 0, AngVel := 0, Mass := 1/2, Radius := 1
    Gamma := 2, Clock := 0 }

lemma pC4_collides : pC4a.CheckCollision pC4b Vector.zero physScale := by
  have e1 : pC4a.Pos.Sub pC4b.Pos = Vector.mk (1/2) 0 := by
    show Vector.mk (1/2 - 0 : ℝ) (0 - 0 : ℝ) = _
    norm_num
  have e2 : (Vector.mk (1/2 : ℝ) 0).Mag = 1/2 := by
    rw [Mag_mk]; exact sqrt_eval (by norm_num) (by norm_num)
  have e3 : (Vector.mk (1/2 : ℝ) 0).Unit = Vector.mk 1 0 := by
    rw [Unit_eval e2]; norm_num
  have ea : pC4a.Vel.Sub Vector.zero = Vector.mk (1/2) 0 := by
    show Vector.mk (1/2 - 0 : ℝ) (0 - 0 : ℝ) = _
    norm_num
  have eb : pC4b.Vel.Sub Vector.zero = Vector.mk (-1/2) 0 := by
    show Vector.mk (-1/2 - 0 : ℝ) (0 - 0 : ℝ) = _
    norm_num
  have eb2 : (Vector.mk (-1/2 : ℝ) 0).Mag = 1/2 := by
    rw [Mag_mk]; exact sqrt_eval (by norm_num) (by norm_num)
  have eb3 : (Vector.mk (-1/2 : ℝ) 0).Unit = Vector.mk (-1) 0 := by
    rw [Unit_eval eb2]; norm_num
  show (pC4a.Pos.Sub pC4b.Pos).Mag < _
  rw [e1, e2, ea, eb, e3, eb3]
  show (1/2 : ℝ) < 1 * physScale * (1 - (1 * 1 + 0 * 0) * (1 - 1/3)) +
    1 * physScale * (1 - (-1 * 1 + 0 * 0) * (1 - 1/2))
  norm_num [physScale]

/-- Claim C4 is false as stated: for the pair pC4a/pC4b, colliding head-on
at the program's physScale = 0.3 with c = 1, the resolver's post-bounce
velocity for the first particle is (-1/2, 0), but the stored rapidity is
(-tanh(1/2), 0) — the FORWARD tanh image of the new velocity — and not the
inverse-tanh image unit(v')·c·atanh(|v'|/c) = (-atanh(1/2), 0) demanded by
the claim, because tanh(1/2) < 1/2 < atanh(1/2). -/
theorem claim_C4_counterexample :
    (((SolveCollisions [pC4a, pC4b] Vector.zero 1 physScale).getD 0
      default).Rap) ≠
      ((((SolveCollisions [pC4a, pC4b] Vector.zero 1 physScale).getD 0
        default).Vel).SetMag
        (1 * atanhSpec
          ((((SolveCollisions [pC4a, pC4b] Vector.zero 1 physScale).getD 0
            default).Vel).Mag / 1))) := by
  rw [SolveCollisions_pair, solvePairStep_eval _ _ _ _ _ pC4_collides]
  simp only [List.getD_cons_zero, Particle.Momentum, Particle.MassRel,
    Vector.Add, Vector.Sub, Vector.Scl, Vector.Neg, Vector.Dot,
    pC4a, pC4b, Vector.zero]
  norm_num
  have hm : (Vector.mk (-(1/2) : ℝ) 0).Mag = 1/2 := by
    rw [Mag_mk]; exact sqrt_eval (by norm_num) (by norm_num)
  rw [hm]
  rw [SetMag_eval hm (by norm_num), SetMag_eval hm (by norm_num)]
  intro hcontra
  have hX := congrArg Vector.X hcontra
  simp only at hX
  have h1 : Real.tanh (1/2) = atanhSpec (1/2) := by linarith [hX]
  linarith [tanh_half_lt_half, half_lt_atanhSpec_half, h1]

/-- Claim C4 (amended): after SolveCollisions resolves a colliding pair, each
affected particle's stored rapidity is the FORWARD tanh image of its new
velocity, rapidity' = unit(v')·c·tanh(|v'|/c) (not the inverse image), so
re-deriving velocity from the stored rapidity does not in general return v'. -/
theorem claim_C4_amended (a b : Particle) (f : Vector) (c φ : ℝ)
    (h : a.CheckCollision b f φ) :
    (((SolveCollisions [a, b] f c φ).getD 0 default).Rap =
      ((((SolveCollisions [a, b] f c φ).getD 0 default).Vel).SetMag
        (c * Real.tanh
          ((((SolveCollisions [a, b] f c φ).getD 0 default).Vel).Mag / c)))) ∧
    (((SolveCollisions [a, b] f c φ).getD 1 default).Rap =
      ((((SolveCollisions [a, b] f c φ).getD 1 default).Vel).SetMag
        (c * Real.tanh
          ((((SolveCollisions [a, b] f c φ).getD 1 default).Vel).Mag / c)))) := by
  rw [SolveCollisions_pair, solvePairStep_eval _ _ _ _ _ h]
  exact ⟨rfl, rfl⟩

/-- Witness for claim C4 (amended) at the concrete colliding pair. -/
theorem claim_C4_witness :
    pC4a.CheckCollision pC4b Vector.zero physScale ∧
    (((SolveCollisions [pC4a, pC4b] Vector.zero 1 physScale).getD 0
      default).Rap =
      ((((SolveCollisions [pC4a, pC4b] Vector.zero 1 physScale).getD 0
        default).Vel).SetMag
        (1 * Real.tanh
          ((((SolveCollisions [pC4a, pC4b] Vector.zero 1 physScale).getD 0
            default).Vel).Mag / 1)))) :=
  ⟨pC4_collides,
   (claim_C4_amended pC4a pC4b Vector.zero 1 physScale pC4_collides).1⟩

/-! ### Claim C5 -/

/-- A particle at (1/2,0) moving right at c/2, stored gamma 3, mass 1/3. -/
noncomputable def pC5a : Particle :=
  { Pos := ⟨1/2, 0⟩, Rap := Vector.zero, Vel := ⟨1/2, 0⟩
    Acc := Vector.zero, AngPos := 0, AngVel := 0, Mass := 1/3, Radius := 1
    Gamma := 3, Clock := 0 }

/-- A particle at the origin moving left at c/2, stored gamma 2, mass 1/2. -/
noncomputable def pC5b : Particle :=
  { Pos := Vector.zero, Rap := Vector.zero, Vel := ⟨-1/2, 0⟩
    Acc := Vector.zero, AngPos := 0, AngVel := 0, Mass := 1/2, Radius := 1
    Gamma := 2, Clock := 0 }

lemma pC5_collides : pC5a.CheckCollision pC5b Vector.zero physScale := by
  have e1 : pC5a.Pos.Sub pC5b.Pos = Vector.mk (1/2) 0 := by
    show Vector.mk (1/2 - 0 : ℝ) (0 - 0 : ℝ) = _
    norm_num
  have e2 : (Vector.mk (1/2 : ℝ) 0).Mag = 1/2 := by
    rw [Mag_mk]; exact sqrt_eval (by norm_num) (by norm_num)
  have e3 : (Vector.mk (1/2 : ℝ) 0).Unit = Vector.mk 1 0 := by
    rw [Unit_eval e2]; norm_num
  have ea : pC5a.Vel.Sub Vector.zero = Vector.mk (1/2) 0 := by
    show Vector.mk (1/2 - 0 : ℝ) (0 - 0 : ℝ) = _
    norm_num
  have eb : pC5b.Vel.Sub Vector.zero = Vector.mk (-1/2) 0 := by
    show Vector.mk (-1/2 - 0 : ℝ) (0 - 0 : ℝ) = _
    norm_num
  have eb2 : (Vector.mk (-1/2 : ℝ) 0).Mag = 1/2 := by
    rw [Mag_mk]; exact sqrt_eval (by norm_num) (by norm_num)
  have eb3 : (Vector.mk (-1/2 : ℝ) 0).Unit = Vector.mk (-1) 0 := by
    rw [Unit_eval eb2]; norm_num
  show (pC5a.Pos.Sub pC5b.Pos).Mag < _
  rw [e1, e2, ea, eb, e3, eb3]
  show (1/2 : ℝ) < 1 * physScale * (1 - (1 * 1 + 0 * 0) * (1 - 1/3)) +
    1 * physScale * (1 - (-1 * 1 + 0 * 0) * (1 - 1/2))
  norm_num [physScale]

/-- The fully evaluated pool state after resolving the C5 pair at the
program's physScale = 0.3. -/
lemma pC5_solve :
    SolveCollisions [pC5a, pC5b] Vector.zero 1 physScale =
      [{ Pos := Vector.mk (11/20) 0, Rap := Vector.mk (-Real.tanh (1/2)) 0
         Vel := Vector.mk (-(1/2)) 0, Acc := Vector.zero, AngPos := 0
         AngVel := 0, Mass := 1/3, Radius := 1, Gamma := 3, Clock := 0 },
       { Pos := Vector.mk (-(1/20)) 0, Rap := Vector.mk (Real.tanh (1/2)) 0
         Vel := Vector.mk (1/2) 0, Acc := Vector.zero, AngPos := 0
         AngVel := 0, Mass := 1/2, Radius := 1, Gamma := 2, Clock := 0 }] := by
  rw [SolveCollisions_pair, solvePairStep_eval _ _ _ _ _ pC5_collides]
  have e1 : pC5a.Pos.Sub pC5b.Pos = Vector.mk (1/2) 0 := by
    show Vector.mk (1/2 - 0 : ℝ) (0 - 0 : ℝ) = _
    norm_num
  have e2 : (Vector.mk (1/2 : ℝ) 0).Mag = 1/2 := by
    rw [Mag_mk]; exact sqrt_eval (by norm_num) (by norm_num)
  have e3 : (Vector.mk (1/2 : ℝ) 0).Unit = Vector.mk 1 0 := by
    rw [Unit_eval e2]; norm_num
  rw [e1, e2, e3]
  simp only [Particle.Momentum, Particle.MassRel, Particle.ScaledRadius,
    Vector.Add, Vector.Sub, Vector.Scl, Vector.Neg, Vector.Dot,
    pC5a, pC5b, Vector.zero, physScale]
  norm_num
  have hm : (Vector.mk (-(1/2) : ℝ) 0).Mag = 1/2 := by
    rw [Mag_mk]; exact sqrt_eval (by norm_num) (by norm_num)
  have hm2 : (Vector.mk (1/2 : ℝ) 0).Mag = 1/2 := by
    rw [Mag_mk]; exact sqrt_eval (by norm_num) (by norm_num)
  rw [hm, hm2, SetMag_eval hm (by norm_num), SetMag_eval hm2 (by norm_num)]
  norm_num [Vector.mk.injEq]
  ring

/-- Claim C5 is false as stated: at the program's physScale = 0.3, the pair
pC5a/pC5b collides along a non-degenerate axis (distance 1/2 ≠ 0); after
SolveCollisions resolves it, the same pair in the same frame STILL collides,
because the resolver's positional correction uses the uncontracted scaled
radii while CheckCollision re-applies length contraction to the post-bounce
velocities, which here inflates the effective radii (sum 13/20 > distance
3/5). -/
theorem claim_C5_counterexample :
    (pC5a.Pos.Sub pC5b.Pos).Mag = 1/2 ∧
    pC5a.CheckCollision pC5b Vector.zero physScale ∧
    ((SolveCollisions [pC5a, pC5b] Vector.zero 1 physScale).getD 0
      default).CheckCollision
      ((SolveCollisions [pC5a, pC5b] Vector.zero 1 physScale).getD 1 default)
      Vector.zero physScale := by
  refine ⟨?_, pC5_collides, ?_⟩
  · have e1 : pC5a.Pos.Sub pC5b.Pos = Vector.mk (1/2) 0 := by
      show Vector.mk (1/2 - 0 : ℝ) (0 - 0 : ℝ) = _
      norm_num
    rw [e1, Mag_mk]
    exact sqrt_eval (by norm_num) (by norm_num)
  · rw [pC5_solve]
    simp only [List.getD_cons_zero, List.getD_cons_succ]
    have e1 : (Vector.mk (11/20 : ℝ) 0).Sub (Vector.mk (-(1/20)) 0) =
        Vector.mk (3/5) 0 := by
      show Vector.mk (11/20 - -(1/20) : ℝ) ((0 : ℝ) - 0) = _
      norm_num
    have e2 : (Vector.mk (3/5 : ℝ) 0).Mag = 3/5 := by
      rw [Mag_mk]; exact sqrt_eval (by norm_num) (by norm_num)
    have e3 : (Vector.mk (3/5 : ℝ) 0).Unit = Vector.mk 1 0 := by
      rw [Unit_eval e2]; norm_num
    have ea : (Vector.mk (-(1/2) : ℝ) 0).Sub Vector.zero =
        Vector.mk (-(1/2)) 0 := by
      show Vector.mk (-(1/2) - 0 : ℝ) ((0:ℝ) - 0) = _
      norm_num
    have ea2 : (Vector.mk (-(1/2) : ℝ) 0).Mag = 1/2 := by
      rw [Mag_mk]; exact sqrt_eval (by norm_num) (by norm_num)
    have ea3 : (Vector.mk (-(1/2) : ℝ) 0).Unit = Vector.mk (-1) 0 := by
      rw [Unit_eval ea2]; norm_num
    have eb : (Vector.mk (1/2 : ℝ) 0).Sub Vector.zero =
        Vector.mk (1/2) 0 := by
      show Vector.mk (1/2 - 0 : ℝ) ((0:ℝ) - 0) = _
      norm_num
    have eb2 : (Vector.mk (1/2 : ℝ) 0).Mag = 1/2 := by
      rw [Mag_mk]; exact sqrt_eval (by norm_num) (by norm_num)
    have eb3 : (Vector.mk (1/2 : ℝ) 0).Unit = Vector.mk 1 0 := by
      rw [Unit_eval eb2]; norm_num
    show ((Vector.mk (11/20 : ℝ) 0).Sub (Vector.mk (-(1/20)) 0)).Mag < _
    rw [e1, e2, ea, eb, ea3, eb3, e3]
    show (3/5 : ℝ) < 1 * physScale * (1 - (-1 * 1 + 0 * 0) * (1 - 1/3)) +
      1 * physScale * (1 - (1 * 1 + 0 * 0) * (1 - 1/2))
    norm_num [physScale]

/-- Claim C5 (amended): after SolveCollisions resolves a colliding pair with
a non-degenerate collision axis and nonnegative scaled radii, the distance
between the two centres equals EXACTLY the sum of the scaled radii — the
particles are exactly touching with respect to the uncontracted radii used
by the positional correction — but CheckCollision, which contracts the radii
by the new velocities, may still report a collision (see counterexample). -/
theorem claim_C5_amended (a b : Particle) (f : Vector) (c φ : ℝ)
    (h : a.CheckCollision b f φ) (hd : (a.Pos.Sub b.Pos).Mag ≠ 0)
    (hr : 0 ≤ a.ScaledRadius φ + b.ScaledRadius φ) :
    ((((SolveCollisions [a, b] f c φ).getD 0 default).Pos).Sub
      (((SolveCollisions [a, b] f c φ).getD 1 default).Pos)).Mag =
      a.ScaledRadius φ + b.ScaledRadius φ := by
  rw [SolveCollisions_pair, solvePairStep_eval _ _ _ _ _ h]
  simp only [List.getD_cons_zero, List.getD_cons_succ]
  have hdd := Vector.mul_self_Mag (a.Pos.Sub b.Pos)
  simp only [Vector.Sub] at hdd
  have hdm : (Vector.mk (a.Pos.X - b.Pos.X) (a.Pos.Y - b.Pos.Y)).Mag ≠ 0 := by
    simpa [Vector.Sub] using hd
  simp only [Vector.Sub, Vector.Add, Vector.Scl, Vector.Unit,
    Particle.ScaledRadius]
  rw [Mag_mk]
  rw [show ∀ x y : ℝ, x = y → Real.sqrt x = Real.sqrt y from
    fun x y hxy => by rw [hxy]]
  · exact Real.sqrt_mul_self hr
  · field_simp
    nlinarith [hdd]

/-- Witness for claim C5 (amended) at the concrete colliding pair and the
program's physScale = 0.3. -/
theorem claim_C5_witness :
    pC5a.CheckCollision pC5b Vector.zero physScale ∧
    (pC5a.Pos.Sub pC5b.Pos).Mag ≠ 0 ∧
    0 ≤ pC5a.ScaledRadius physScale + pC5b.ScaledRadius physScale ∧
    ((((SolveCollisions [pC5a, pC5b] Vector.zero 1 physScale).getD 0
      default).Pos).Sub
      (((SolveCollisions [pC5a, pC5b] Vector.zero 1 physScale).getD 1
        default).Pos)).Mag =
      pC5a.ScaledRadius physScale + pC5b.ScaledRadius physScale := by
  have hd : (pC5a.Pos.Sub pC5b.Pos).Mag ≠ 0 := by
    have e1 : pC5a.Pos.Sub pC5b.Pos = Vector.mk (1/2) 0 := by
      show Vector.mk (1/2 - 0 : ℝ) (0 - 0 : ℝ) = _
      norm_num
    rw [e1, Mag_mk, sqrt_eval (show (0:ℝ) ≤ 1/2 by norm_num) (by norm_num)]
    norm_num
  have hr : (0:ℝ) ≤ pC5a.ScaledRadius physScale + pC5b.ScaledRadius
      physScale := by
    show (0:ℝ) ≤ 1 * physScale + 1 * physScale
    norm_num [physScale]
  exact ⟨pC5_collides, hd, hr,
    claim_C5_amended pC5a pC5b Vector.zero 1 physScale pC5_collides hd hr⟩

/-! ### Claims C6 and C8: pool slot management -/

lemma getD_irrel {α : Type} (l : List α) (i : ℕ) (d d' : α)
    (h : i < l.length) : l.getD i d = l.getD i d' := by
  rw [List.getD, List.getD]
  cases h' : l.get? i with
  | none =>
    rw [List.get?_eq_none] at h'
    omega
  | some x => simp

/-- Deactivate on an active slot: reports success, clears the slot. -/
lemma Deactivate_active {p : Pool} {i : ℕ}
    (h : p.active.getD i false = true) :
    p.Deactivate i = (true, { p with
      active := p.active.set i false
      particles := p.particles.set i none }) := by
  unfold Pool.Deactivate
  rw [h]
  rfl

/-- Deactivate on an inactive slot: reports failure, pool unchanged. -/
lemma Deactivate_inactive {p : Pool} {i : ℕ}
    (h : p.active.getD i false = false) :
    p.Deactivate i = (false, p) := by
  unfold Pool.Deactivate
  rw [h]
  rfl

lemma find?_singleton (f : ℕ → Bool) (a : ℕ) :
    [a].find? f = if f a then some a else none := by
  rw [List.find?_cons]
  split <;> simp_all

lemma find?_range_some {f : ℕ → Bool} :
    ∀ {n i : ℕ}, (List.range n).find? f = some i →
      i < n ∧ f i = true ∧ ∀ j, j < i → f j = false := by
  intro n
  induction n with
  | zero => intro i h; simp at h
  | succ n ih =>
    intro i h
    rw [List.range_succ, List.find?_append] at h
    cases h1 : (List.range n).find? f with
    | some k =>
      rw [h1] at h
      simp only [Option.or_some] at h
      obtain ⟨hk1, hk2, hk3⟩ := ih (h1.trans (congrArg some (by
        injection h)))
      exact ⟨by omega, hk2, hk3⟩
    | none =>
      rw [h1] at h
      simp only [Option.none_or] at h
      rw [find?_singleton] at h
      by_cases hfn : f n = true
      · rw [if_pos hfn] at h
        injection h with h
        subst h
        refine ⟨by omega, hfn, fun j hj => ?_⟩
        have := List.find?_eq_none.mp h1 j (List.mem_range.mpr hj)
        exact Bool.not_eq_true _ ▸ by simpa using this
      · rw [if_neg hfn] at h
        exact absurd h (by simp)

lemma find?_range_eq_some {f : ℕ → Bool} :
    ∀ {n i : ℕ}, i < n → f i = true → (∀ j, j < i → f j = false) →
      (List.range n).find? f = some i := by
  intro n
  induction n with
  | zero => intro i h; omega
  | succ n ih =>
    intro i hi hf hmin
    rw [List.range_succ, List.find?_append]
    rcases lt_or_le i n with hlt | hle
    · rw [ih hlt hf hmin]
      rfl
    · have hin : i = n := by omega
      subst hin
      have h1 : (List.range i).find? f = none :=
        List.find?_eq_none.mpr fun j hj =>
          by simp [hmin j (List.mem_range.mp hj)]
      rw [h1, find?_singleton, if_pos hf]
      rfl

lemma find?_range_none {f : ℕ → Bool} {n : ℕ}
    (h : (List.range n).find? f = none) :
    ∀ j, j < n → f j = false := fun j hj => by
  have := List.find?_eq_none.mp h j (List.mem_range.mpr hj)
  simpa using this

/-- Characterization of the slot found by Activate's search: in range,
inactive, and every slot before it active. -/
lemma firstInactive_some {p : Pool} {i : ℕ} (h : p.firstInactive = some i) :
    i < p.particles.length ∧ p.active.getD i true = false ∧
      ∀ j, j < i → p.active.getD j true = true := by
  obtain ⟨h1, h2, h3⟩ := find?_range_some h
  refine ⟨h1, by simpa using h2, fun j hj => ?_⟩
  have := h3 j hj
  simpa using this

lemma firstInactive_eq_some {p : Pool} {i : ℕ}
    (hi : i < p.particles.length) (hf : p.active.getD i true = false)
    (hmin : ∀ j, j < i → p.active.getD j true = true) :
    p.firstInactive = some i :=
  find?_range_eq_some hi
    (by show (!(p.active.getD i true)) = true; rw [hf]; rfl)
    fun j hj => by
      show (!(p.active.getD j true)) = false
      rw [hmin j hj]
      rfl

lemma firstInactive_none {p : Pool} (h : p.firstInactive = none) :
    ∀ j, j < p.particles.length → p.active.getD j true = true := fun j hj => by
  have := find?_range_none h j hj
  simpa using this

/-- Claim C6: Pool.Activate fills the lowest-indexed inactive slot with a
fresh particle (velocity and acceleration zero, gamma 1, clock 0); with no
inactive slot it appends one new slot to every parallel array, leaving
existing slots untouched; and in a full pool of size N, deactivating slot k
and activating once more reuses slot k with the pool length still N. -/
theorem claim_C6 (p : Pool) (now : ℝ) (pos rap : Vector)
    (angPos angVel mass radius : ℝ) (sprite : ℤ)
    (hlen : p.active.length = p.particles.length) :
    (∀ i, p.firstInactive = some i →
      i < p.particles.length ∧
      p.active.getD i true = false ∧
      (∀ j, j < i → p.active.getD j true = true) ∧
      (p.Activate now pos rap angPos angVel mass radius sprite).particles =
        p.particles.set i
          (some (Pool.freshParticle pos rap angPos angVel mass radius)) ∧
      (p.Activate now pos rap angPos angVel mass radius sprite).active =
        p.active.set i true ∧
      (p.Activate now pos rap angPos angVel mass radius
        sprite).particles.length = p.particles.length) ∧
    (p.firstInactive = none →
      (∀ j, j < p.particles.length → p.active.getD j true = true) ∧
      (p.Activate now pos rap angPos angVel mass radius sprite).particles =
        p.particles ++
          [some (Pool.freshParticle pos rap angPos angVel mass radius)] ∧
      (p.Activate now pos rap angPos angVel mass radius sprite).active =
        p.active ++ [true] ∧
      (p.Activate now pos rap angPos angVel mass radius sprite).lifetimes =
        p.lifetimes ++ [now] ∧
      (p.Activate now pos rap angPos angVel mass radius sprite).sprites =
        p.sprites ++ [sprite]) ∧
    ((Pool.freshParticle pos rap angPos angVel mass radius).Vel =
        Vector.zero ∧
      (Pool.freshParticle pos rap angPos angVel mass radius).Acc =
        Vector.zero ∧
      (Pool.freshParticle pos rap angPos angVel mass radius).Gamma = 1 ∧
      (Pool.freshParticle pos rap angPos angVel mass radius).Clock = 0) ∧
    (∀ k, k < p.particles.length →
      (∀ j, j < p.particles.length → p.active.getD j true = true) →
      ((((p.Deactivate k).2).Activate now pos rap angPos angVel mass radius
        sprite).particles.length = p.particles.length ∧
       (((p.Deactivate k).2).Activate now pos rap angPos angVel mass radius
        sprite).particles.getD k none =
          some (Pool.freshParticle pos rap angPos angVel mass radius) ∧
       (((p.Deactivate k).2).Activate now pos rap angPos angVel mass radius
        sprite).active.getD k false = true)) := by
  refine ⟨?_, ?_, ⟨rfl, rfl, rfl, rfl⟩, ?_⟩
  · intro i hfi
    obtain ⟨h1, h2, h3⟩ := firstInactive_some hfi
    rw [Activate_fill p now pos rap angPos angVel mass radius sprite hfi]
    exact ⟨h1, h2, h3, rfl, rfl, by simp⟩
  · intro hfi
    rw [Activate_append p now pos rap angPos angVel mass radius sprite hfi]
    exact ⟨firstInactive_none hfi, rfl, rfl, rfl, rfl⟩
  · intro k hk hfull
    have hka : k < p.active.length := by omega
    have hact : p.active.getD k false = true := by
      rw [getD_irrel _ _ _ true hka]
      exact hfull k hk
    rw [Deactivate_active hact]
    set p1 : Pool := { p with
      active := p.active.set k false
      particles := p.particles.set k none } with hp1
    have hfi1 : p1.firstInactive = some k := by
      apply firstInactive_eq_some
      · show k < (p.particles.set k none).length
        simpa using hk
      · show (p.active.set k false).getD k true = false
        rw [getD_irrel _ _ _ false (by simpa using hka)]
        rw [getD_set_lt _ _ _ _ hka]
      · intro j hj
        show (p.active.set k false).getD j true = true
        rw [getD_set_ne _ _ _ (by omega)]
        exact hfull j (by omega)
    rw [Activate_fill p1 now pos rap angPos angVel mass radius sprite hfi1]
    refine ⟨by simp, ?_, ?_⟩
    · show ((p.particles.set k none).set k
        (some (Pool.freshParticle pos rap angPos angVel mass radius))).getD
          k none = _
      rw [getD_set_lt _ _ _ _ (by simpa using hk)]
    · show ((p.active.set k false).set k true).getD k false = true
      rw [getD_set_lt _ _ _ _ (by simpa using hka)]

/-- Witness for claim C6 at the one-slot empty pool. -/
theorem claim_C6_witness :
    (NewPool 1).active.length = (NewPool 1).particles.length ∧
    (NewPool 1).firstInactive = some 0 ∧
    ((NewPool 1).Activate 0 Vector.zero Vector.zero 0 0 1 1
      0).particles.length = (NewPool 1).particles.length :=
  ⟨rfl, rfl,
   ((claim_C6 (NewPool 1) 0 Vector.zero Vector.zero 0 0 1 1 0 rfl).1 0
     rfl).2.2.2.2.2⟩

/-- Claim C8: for an in-range index, Deactivate on an active slot returns
true and clears exactly that slot; on an inactive slot it returns false and
leaves the whole pool unchanged. -/
theorem claim_C8 (p : Pool) (i : ℕ) (hi : i < p.active.length) :
    (p.active.getD i false = true →
      p.Deactivate i = (true, { p with
        active := p.active.set i false
        particles := p.particles.set i none })) ∧
    (p.active.getD i false = false →
      p.Deactivate i = (false, p)) :=
  ⟨fun h => Deactivate_active h, fun h => Deactivate_inactive h⟩

/-- Witness for claim C8 at the one-slot empty pool. -/
theorem claim_C8_witness :
    0 < (NewPool 1).active.length ∧
    ((NewPool 1).active.getD 0 false = false →
      (NewPool 1).Deactivate 0 = (false, NewPool 1)) :=
  ⟨by simp [NewPool], (claim_C8 (NewPool 1) 0 (by simp [NewPool])).2⟩

/-! ### Claim C7: the pool structural invariant -/

/-- The structural invariant of the pool: all four parallel arrays have the
same length, and every active slot holds a particle. -/
def PoolInv (p : Pool) : Prop :=
  p.active.length = p.particles.length ∧
  p.lifetimes.length = p.particles.length ∧
  p.sprites.length = p.particles.length ∧
  ∀ i, p.active.getD i false = true → (p.particles.getD i none).isSome = true

lemma getD_replicate_self {α : Type} (a : α) (n i : ℕ) :
    (List.replicate n a).getD i a = a := by
  rcases lt_or_le i n with h | h
  · rw [List.getD, List.get?_eq_getElem?]
    simp [List.getElem?_replicate, h]
  · rw [List.getD, List.get?_eq_none.mpr (by simpa using h)]
    rfl

lemma PoolInv_NewPool (n : ℕ) : PoolInv (NewPool n) := by
  refine ⟨by simp [NewPool], by simp [NewPool], by simp [NewPool], ?_⟩
  intro i h
  rw [show (NewPool n).active = List.replicate n false from rfl,
    getD_replicate_self] at h
  exact absurd h (by simp)

lemma isSome_after_clear {parts : List (Option Particle)} {act : List Bool}
    (hInv : ∀ j, act.getD j false = true → (parts.getD j none).isSome = true)
    (i : ℕ) :
    ∀ j, (act.set i false).getD j false = true →
      ((parts.set i none).getD j none).isSome = true := by
  intro j hj
  rcases eq_or_ne i j with rfl | hne
  · exfalso
    rcases lt_or_le i act.length with hlt | hle
    · rw [getD_set_lt _ _ _ _ hlt] at hj
      exact Bool.false_ne_true hj
    · rw [List.set_eq_of_length_le hle, getD_of_le _ _ _ hle] at hj
      exact Bool.false_ne_true hj
  · rw [getD_set_ne _ _ _ hne] at hj
    rw [getD_set_ne _ _ _ hne]
    exact hInv j hj

lemma Deactivate_Inv {p : Pool} (h : PoolInv p) (i : ℕ) :
    PoolInv ((p.Deactivate i).2) := by
  obtain ⟨h1, h2, h3, h4⟩ := h
  rcases Bool.eq_false_or_eq_true (p.active.getD i false) with hi | hi
  · rw [Deactivate_active hi]
    exact ⟨by simpa using h1, by simpa using h2, by simpa using h3,
      isSome_after_clear h4 i⟩
  · rw [Deactivate_inactive hi]
    exact ⟨h1, h2, h3, h4⟩

lemma Activate_Inv {p : Pool} (h : PoolInv p) (now : ℝ) (pos rap : Vector)
    (angPos angVel mass radius : ℝ) (sprite : ℤ) :
    PoolInv (p.Activate now pos rap angPos angVel mass radius sprite) := by
  obtain ⟨h1, h2, h3, h4⟩ := h
  cases hfi : p.firstInactive with
  | some k =>
    rw [Activate_fill p now pos rap angPos angVel mass radius sprite hfi]
    obtain ⟨hk, _, _⟩ := firstInactive_some hfi
    refine ⟨by simpa using h1, by simpa using h2, by simpa using h3, ?_⟩
    intro j hj
    rcases eq_or_ne k j with rfl | hne
    · rw [getD_set_lt _ _ _ _ hk]
      rfl
    · rw [getD_set_ne _ _ _ hne] at hj
      rw [getD_set_ne _ _ _ hne]
      exact h4 j hj
  | none =>
    rw [Activate_append p now pos rap angPos angVel mass radius sprite hfi]
    simp only [Pool.appendNew]
    refine ⟨by simp [h1], by simp [h2], by simp [h3], ?_⟩
    intro j hj
    rcases lt_or_le j p.active.length with hlt | hle
    · rw [getD_append_lt _ _ _ _ hlt] at hj
      rw [getD_append_lt _ _ _ _ (by omega)]
      exact h4 j hj
    · rcases eq_or_ne j p.particles.length with rfl | hne
      · rw [getD_concat_length]
        rfl
      · exfalso
        rw [getD_of_le _ _ _ (by simp; omega)] at hj
        exact Bool.false_ne_true hj

lemma Deactivate_fields (p : Pool) (i : ℕ) :
    ((p.Deactivate i).2).lifetimes = p.lifetimes ∧
    ((p.Deactivate i).2).sprites = p.sprites ∧
    ((p.Deactivate i).2).maxLifetime = p.maxLifetime ∧
    ((p.Deactivate i).2).enforceLifetime = p.enforceLifetime ∧
    ((p.Deactivate i).2).disableCollision = p.disableCollision ∧
    ((p.Deactivate i).2).active.length = p.active.length ∧
    ((p.Deactivate i).2).particles.length = p.particles.length := by
  rcases Bool.eq_false_or_eq_true (p.active.getD i false) with hi | hi
  · rw [Deactivate_active hi]
    exact ⟨rfl, rfl, rfl, rfl, rfl, by simp, by simp⟩
  · rw [Deactivate_inactive hi]
    exact ⟨rfl, rfl, rfl, rfl, rfl, rfl, rfl⟩

lemma collectActiveGo_Inv (now : ℝ) :
    ∀ (L : List ℕ) (q : Pool), PoolInv q →
      PoolInv (Pool.collectActiveGo now q L).1 := by
  intro L
  induction L with
  | nil => intro q h; exact h
  | cons i rest ih =>
    intro q h
    simp only [Pool.collectActiveGo]
    by_cases h1 : q.enforceLifetime = true ∧ q.active.getD i false = true ∧
        now - q.lifetimes.getD i 0 > q.maxLifetime
    · rw [if_pos h1]
      exact ih _ (Deactivate_Inv h i)
    · rw [if_neg h1]
      by_cases h2 : q.active.getD i false = true
      · rw [if_pos h2]
        exact ih _ h
      · rw [if_neg h2]
        exact ih _ h

lemma collectActiveGo_fields (now : ℝ) :
    ∀ (L : List ℕ) (q : Pool),
      (Pool.collectActiveGo now q L).1.lifetimes = q.lifetimes ∧
      (Pool.collectActiveGo now q L).1.sprites = q.sprites ∧
      (Pool.collectActiveGo now q L).1.maxLifetime = q.maxLifetime ∧
      (Pool.collectActiveGo now q L).1.enforceLifetime = q.enforceLifetime ∧
      (Pool.collectActiveGo now q L).1.disableCollision = q.disableCollision ∧
      (Pool.collectActiveGo now q L).1.active.length = q.active.length ∧
      (Pool.collectActiveGo now q L).1.particles.length = q.particles.length := by
  intro L
  induction L with
  | nil => intro q; exact ⟨rfl, rfl, rfl, rfl, rfl, rfl, rfl⟩
  | cons i rest ih =>
    intro q
    simp only [Pool.collectActiveGo]
    by_cases h1 : q.enforceLifetime = true ∧ q.active.getD i false = true ∧
        now - q.lifetimes.getD i 0 > q.maxLifetime
    · rw [if_pos h1]
      obtain ⟨g1, g2, g3, g4, g5, g6, g7⟩ := ih ((q.Deactivate i).2)
      obtain ⟨d1, d2, d3, d4, d5, d6, d7⟩ := Deactivate_fields q i
      exact ⟨g1.trans d1, g2.trans d2, g3.trans d3, g4.trans d4,
        g5.trans d5, g6.trans d6, g7.trans d7⟩
    · rw [if_neg h1]
      by_cases h2 : q.active.getD i false = true
      · rw [if_pos h2]
        exact ih q
      · rw [if_neg h2]
        exact ih q

lemma scatter_nil_vals (parts : List (Option Particle)) (a : ℕ)
    (t : List ℕ) : Pool.scatter parts (a :: t) [] = parts := rfl

lemma scatter_cons (parts : List (Option Particle)) (a : ℕ) (t : List ℕ)
    (b : Particle) (tv : List Particle) :
    Pool.scatter parts (a :: t) (b :: tv) =
      Pool.scatter (parts.set a (some b)) t tv := rfl

lemma scatter_length :
    ∀ (idxs : List ℕ) (vals : List Particle) (parts : List (Option Particle)),
      (Pool.scatter parts idxs vals).length = parts.length := by
  intro idxs
  induction idxs with
  | nil => intro vals parts; rfl
  | cons a t ih =>
    intro vals parts
    cases vals with
    | nil => rw [scatter_nil_vals]
    | cons b tv =>
      rw [scatter_cons, ih]
      simp

lemma getD_set_isSome {l : List (Option Particle)} {i j : ℕ} {v : Particle}
    (h : (l.getD i none).isSome = true) :
    ((l.set j (some v)).getD i none).isSome = true := by
  rcases eq_or_ne j i with rfl | hne
  · rcases lt_or_le j l.length with hlt | hle
    · rw [getD_set_lt _ _ _ _ hlt]
      rfl
    · rw [List.set_eq_of_length_le hle]
      exact h
  · rw [getD_set_ne _ _ _ hne]
    exact h

lemma scatter_isSome :
    ∀ (idxs : List ℕ) (vals : List Particle) (parts : List (Option Particle))
      (i : ℕ), (parts.getD i none).isSome = true →
      ((Pool.scatter parts idxs vals).getD i none).isSome = true := by
  intro idxs
  induction idxs with
  | nil => intro vals parts i h; exact h
  | cons a t ih =>
    intro vals parts i h
    cases vals with
    | nil => rw [scatter_nil_vals]; exact h
    | cons b tv =>
      rw [scatter_cons]
      exact ih tv _ i (getD_set_isSome h)

lemma scatter_not_mem :
    ∀ (idxs : List ℕ) (vals : List Particle) (parts : List (Option Particle))
      (i : ℕ), i ∉ idxs →
      (Pool.scatter parts idxs vals).getD i none = parts.getD i none := by
  intro idxs
  induction idxs with
  | nil => intro vals parts i _; rfl
  | cons a t ih =>
    intro vals parts i hmem
    cases vals with
    | nil => rw [scatter_nil_vals]
    | cons b tv =>
      rw [scatter_cons, ih tv _ i (fun hc => hmem (List.mem_cons_of_mem a hc))]
      exact getD_set_ne _ _ _ (fun hc => hmem (hc ▸ List.mem_cons_self a t))

lemma Update_active (p : Pool) (now : ℝ) (frame : Vector) (c dt φ : ℝ) :
    (p.Update now frame c dt φ).active = (p.collectActive now).1.active := rfl

lemma Update_lifetimes (p : Pool) (now : ℝ) (frame : Vector) (c dt φ : ℝ) :
    (p.Update now frame c dt φ).lifetimes =
      (p.collectActive now).1.lifetimes := rfl

lemma Update_sprites (p : Pool) (now : ℝ) (frame : Vector) (c dt φ : ℝ) :
    (p.Update now frame c dt φ).sprites =
      (p.collectActive now).1.sprites := rfl

lemma Update_particles_scatter (p : Pool) (now : ℝ) (frame : Vector)
    (c dt φ : ℝ) :
    ∃ vals, (p.Update now frame c dt φ).particles =
      Pool.scatter (p.collectActive now).1.particles
        (p.collectActive now).2 vals := ⟨_, rfl⟩

lemma UpdateWith_active (p : Pool) (now : ℝ) (frame : Vector) (c dt φ : ℝ)
    (others : List Particle) :
    (p.UpdateWith now frame c dt φ others).active =
      (p.collectActive now).1.active := rfl

lemma UpdateWith_lifetimes (p : Pool) (now : ℝ) (frame : Vector) (c dt φ : ℝ)
    (others : List Particle) :
    (p.UpdateWith now frame c dt φ others).lifetimes =
      (p.collectActive now).1.lifetimes := rfl

lemma UpdateWith_sprites (p : Pool) (now : ℝ) (frame : Vector) (c dt φ : ℝ)
    (others : List Particle) :
    (p.UpdateWith now frame c dt φ others).sprites =
      (p.collectActive now).1.sprites := rfl

lemma UpdateWith_particles_scatter (p : Pool) (now : ℝ) (frame : Vector)
    (c dt φ : ℝ) (others : List Particle) :
    ∃ vals, (p.UpdateWith now frame c dt φ others).particles =
      Pool.scatter (p.collectActive now).1.particles
        (p.collectActive now).2 vals := ⟨_, rfl⟩

lemma Update_Inv {p : Pool} (h : PoolInv p) (now : ℝ) (frame : Vector)
    (c dt φ : ℝ) : PoolInv (p.Update now frame c dt φ) := by
  have hq := collectActiveGo_Inv now (List.range p.particles.length) p h
  obtain ⟨q1, q2, q3, q4⟩ := hq
  obtain ⟨vals, hvals⟩ := Update_particles_scatter p now frame c dt φ
  refine ⟨?_, ?_, ?_, ?_⟩
  · rw [Update_active, hvals, scatter_length]
    exact q1
  · rw [Update_lifetimes, hvals, scatter_length]
    exact q2
  · rw [Update_sprites, hvals, scatter_length]
    exact q3
  · intro i hi
    rw [Update_active] at hi
    rw [hvals]
    exact scatter_isSome _ _ _ _ (q4 i hi)

lemma UpdateWith_Inv {p : Pool} (h : PoolInv p) (now : ℝ) (frame : Vector)
    (c dt φ : ℝ) (others : List Particle) :
    PoolInv (p.UpdateWith now frame c dt φ others) := by
  have hq := collectActiveGo_Inv now (List.range p.particles.length) p h
  obtain ⟨q1, q2, q3, q4⟩ := hq
  obtain ⟨vals, hvals⟩ := UpdateWith_particles_scatter p now frame c dt φ
    others
  refine ⟨?_, ?_, ?_, ?_⟩
  · rw [UpdateWith_active, hvals, scatter_length]
    exact q1
  · rw [UpdateWith_lifetimes, hvals, scatter_length]
    exact q2
  · rw [UpdateWith_sprites, hvals, scatter_length]
    exact q3
  · intro i hi
    rw [UpdateWith_active] at hi
    rw [hvals]
    exact scatter_isSome _ _ _ _ (q4 i hi)

lemma foldl_preserve {β γ : Type} (P : β → Prop) (step : β → γ → β)
    (hstep : ∀ q x, P q → P (step q x)) :
    ∀ (l : List γ) (init : β), P init → P (l.foldl step init) := by
  intro l
  induction l with
  | nil => intro init h; exact h
  | cons a t ih => intro init h; exact ih _ (hstep init a h)

lemma Reset_Inv {p : Pool} (h : PoolInv p) : PoolInv p.Reset := by
  unfold Pool.Reset
  apply foldl_preserve PoolInv _ _ _ _ h
  intro q i hq
  obtain ⟨h1, h2, h3, h4⟩ := hq
  by_cases hi : q.active.getD i false = true
  · rw [if_pos hi]
    exact ⟨by simpa using h1, by simpa using h2, by simpa using h3,
      isSome_after_clear h4 i⟩
  · rw [if_neg hi]
    exact ⟨h1, h2, h3, h4⟩

/-- Pool states reachable from NewPool by the spec's operations. -/
inductive Reachable : Pool → Prop where
  | new (n : ℕ) : Reachable (NewPool n)
  | activate (p : Pool) (now : ℝ) (pos rap : Vector)
      (angPos angVel mass radius : ℝ) (sprite : ℤ) (h : Reachable p) :
      Reachable (p.Activate now pos rap angPos angVel mass radius sprite)
  | deactivate (p : Pool) (i : ℕ) (hi : i < p.particles.length)
      (h : Reachable p) : Reachable ((p.Deactivate i).2)
  | update (p : Pool) (now : ℝ) (frame : Vector) (c dt φ : ℝ)
      (h : Reachable p) : Reachable (p.Update now frame c dt φ)
  | updateWith (p : Pool) (now : ℝ) (frame : Vector) (c dt φ : ℝ)
      (others : List Particle) (h : Reachable p) :
      Reachable (p.UpdateWith now frame c dt φ others)
  | reset (p : Pool) (h : Reachable p) : Reachable p.Reset

/-- Claim C7: every pool state reachable from NewPool by Activate,
Deactivate (in-range), Update, UpdateWith and Reset keeps all parallel
arrays the same length, and every active slot holds a (non-null) particle. -/
theorem claim_C7 : ∀ p : Pool, Reachable p → PoolInv p := by
  intro p h
  induction h with
  | new n => exact PoolInv_NewPool n
  | activate p now pos rap angPos angVel mass radius sprite h ih =>
    exact Activate_Inv ih now pos rap angPos angVel mass radius sprite
  | deactivate p i hi h ih => exact Deactivate_Inv ih i
  | update p now frame c dt φ h ih => exact Update_Inv ih now frame c dt φ
  | updateWith p now frame c dt φ others h ih =>
    exact UpdateWith_Inv ih now frame c dt φ others
  | reset p h ih => exact Reset_Inv ih

/-- Witness for claim C7 at a concrete two-step reachable state. -/
theorem claim_C7_witness :
    Reachable ((NewPool 1).Activate 0 Vector.zero Vector.zero 0 0 1 1 0) ∧
    PoolInv ((NewPool 1).Activate 0 Vector.zero Vector.zero 0 0 1 1 0) :=
  ⟨Reachable.activate (NewPool 1) 0 Vector.zero Vector.zero 0 0 1 1 0
      (Reachable.new 1),
   claim_C7 _ (Reachable.activate (NewPool 1) 0 Vector.zero Vector.zero 0 0 1
      1 0 (Reachable.new 1))⟩

/-! ### Claim C9: lifetime expiry in the update loop -/

lemma lt_of_getD_true {l : List Bool} {i : ℕ} (h : l.getD i false = true) :
    i < l.length := by
  by_contra hc
  rw [getD_of_le _ _ _ (by omega)] at h
  exact Bool.false_ne_true h

lemma Deactivate_getD_ne (q : Pool) {j i : ℕ} (h : j ≠ i) :
    ((q.Deactivate j).2).active.getD i false = q.active.getD i false ∧
    ((q.Deactivate j).2).particles.getD i none = q.particles.getD i none := by
  rcases Bool.eq_false_or_eq_true (q.active.getD j false) with hj | hj
  · rw [Deactivate_active hj]
    exact ⟨getD_set_ne _ _ _ h, getD_set_ne _ _ _ h⟩
  · rw [Deactivate_inactive hj]
    exact ⟨rfl, rfl⟩

lemma Deactivate_self_cleared (q : Pool) {i : ℕ}
    (h : q.active.getD i false = true) :
    ((q.Deactivate i).2).active.getD i false = false ∧
    ((q.Deactivate i).2).particles.getD i none = none := by
  rw [Deactivate_active h]
  constructor
  · show (q.active.set i false).getD i false = false
    rcases lt_or_le i q.active.length with hlt | hle
    · exact getD_set_lt _ _ _ _ hlt
    · rw [List.set_eq_of_length_le hle]
      exact getD_of_le _ _ _ hle
  · show (q.particles.set i none).getD i none = none
    rcases lt_or_le i q.particles.length with hlt | hle
    · exact getD_set_lt _ _ _ _ hlt
    · rw [List.set_eq_of_length_le hle]
      exact getD_of_le _ _ _ hle

lemma go_untouched (now : ℝ) :
    ∀ (L : List ℕ) (q : Pool) (i : ℕ), i ∉ L →
      (Pool.collectActiveGo now q L).1.active.getD i false =
        q.active.getD i false ∧
      (Pool.collectActiveGo now q L).1.particles.getD i none =
        q.particles.getD i none := by
  intro L
  induction L with
  | nil => intro q i _; exact ⟨rfl, rfl⟩
  | cons j rest ih =>
    intro q i hmem
    have hji : j ≠ i := fun hc => hmem (hc ▸ List.mem_cons_self j rest)
    have hrest : i ∉ rest := fun hc => hmem (List.mem_cons_of_mem j hc)
    simp only [Pool.collectActiveGo]
    by_cases h1 : q.enforceLifetime = true ∧ q.active.getD j false = true ∧
        now - q.lifetimes.getD j 0 > q.maxLifetime
    · rw [if_pos h1]
      obtain ⟨e1, e2⟩ := Deactivate_getD_ne q hji
      obtain ⟨g1, g2⟩ := ih ((q.Deactivate j).2) i hrest
      exact ⟨g1.trans e1, g2.trans e2⟩
    · rw [if_neg h1]
      by_cases h2 : q.active.getD j false = true
      · rw [if_pos h2]
        exact ih q i hrest
      · rw [if_neg h2]
        exact ih q i hrest

lemma go_expired (now : ℝ) :
    ∀ (L : List ℕ) (q : Pool) (i : ℕ), L.Nodup → i ∈ L →
      q.enforceLifetime = true → q.active.getD i false = true →
      now - q.lifetimes.getD i 0 > q.maxLifetime →
      (Pool.collectActiveGo now q L).1.active.getD i false = false ∧
      (Pool.collectActiveGo now q L).1.particles.getD i none = none := by
  intro L
  induction L with
  | nil => intro q i _ hmem; exact absurd hmem (List.not_mem_nil i)
  | cons j rest ih =>
    intro q i hnd hmem henf hact hover
    obtain ⟨hjr, hndr⟩ := List.nodup_cons.mp hnd
    simp only [Pool.collectActiveGo]
    rcases List.mem_cons.mp hmem with rfl | hir
    · rw [if_pos ⟨henf, hact, hover⟩]
      obtain ⟨c1, c2⟩ := Deactivate_self_cleared q hact
      obtain ⟨g1, g2⟩ := go_untouched now rest ((q.Deactivate i).2) i hjr
      exact ⟨g1.trans c1, g2.trans c2⟩
    · have hji : j ≠ i := fun hc => hjr (hc ▸ hir)
      by_cases h1 : q.enforceLifetime = true ∧ q.active.getD j false = true ∧
          now - q.lifetimes.getD j 0 > q.maxLifetime
      · rw [if_pos h1]
        obtain ⟨f1, _, f3, f4, _, _, _⟩ := Deactivate_fields q j
        obtain ⟨e1, _⟩ := Deactivate_getD_ne q hji
        apply ih ((q.Deactivate j).2) i hndr hir
        · rw [f4]; exact henf
        · rw [e1]; exact hact
        · rw [f1, f3]; exact hover
      · rw [if_neg h1]
        by_cases h2 : q.active.getD j false = true
        · rw [if_pos h2]
          exact ih q i hndr hir henf hact hover
        · rw [if_neg h2]
          exact ih q i hndr hir henf hact hover

lemma go_survivor (now : ℝ) :
    ∀ (L : List ℕ) (q : Pool) (i : ℕ), L.Nodup → i ∈ L →
      q.active.getD i false = true →
      ¬(q.enforceLifetime = true ∧
        now - q.lifetimes.getD i 0 > q.maxLifetime) →
      (Pool.collectActiveGo now q L).1.active.getD i false = true ∧
      i ∈ (Pool.collectActiveGo now q L).2 := by
  intro L
  induction L with
  | nil => intro q i _ hmem; exact absurd hmem (List.not_mem_nil i)
  | cons j rest ih =>
    intro q i hnd hmem hact hcond
    obtain ⟨hjr, hndr⟩ := List.nodup_cons.mp hnd
    simp only [Pool.collectActiveGo]
    rcases List.mem_cons.mp hmem with rfl | hir
    · have h1 : ¬(q.enforceLifetime = true ∧ q.active.getD i false = true ∧
          now - q.lifetimes.getD i 0 > q.maxLifetime) :=
        fun ⟨he, _, ho⟩ => hcond ⟨he, ho⟩
      rw [if_neg h1, if_pos hact]
      obtain ⟨g1, _⟩ := go_untouched now rest q i hjr
      exact ⟨g1.trans hact, List.mem_cons_self i _⟩
    · have hji : j ≠ i := fun hc => hjr (hc ▸ hir)
      by_cases h1 : q.enforceLifetime = true ∧ q.active.getD j false = true ∧
          now - q.lifetimes.getD j 0 > q.maxLifetime
      · rw [if_pos h1]
        obtain ⟨f1, _, f3, f4, _, _, _⟩ := Deactivate_fields q j
        obtain ⟨e1, _⟩ := Deactivate_getD_ne q hji
        apply ih ((q.Deactivate j).2) i hndr hir
        · rw [e1]; exact hact
        · rw [f1, f3, f4]; exact hcond
      · rw [if_neg h1]
        by_cases h2 : q.active.getD j false = true
        · rw [if_pos h2]
          obtain ⟨g1, g2⟩ := ih q i hndr hir hact hcond
          exact ⟨g1, List.mem_cons_of_mem j g2⟩
        · rw [if_neg h2]
          exact ih q i hndr hir hact hcond

lemma go_mem_rev (now : ℝ) :
    ∀ (L : List ℕ) (q : Pool) (i : ℕ), L.Nodup →
      i ∈ (Pool.collectActiveGo now q L).2 →
      i ∈ L ∧ q.active.getD i false = true ∧
      ¬(q.enforceLifetime = true ∧
        now - q.lifetimes.getD i 0 > q.maxLifetime) := by
  intro L
  induction L with
  | nil => intro q i _ hmem; exact absurd hmem (List.not_mem_nil i)
  | cons j rest ih =>
    intro q i hnd hmem
    obtain ⟨hjr, hndr⟩ := List.nodup_cons.mp hnd
    simp only [Pool.collectActiveGo] at hmem
    by_cases h1 : q.enforceLifetime = true ∧ q.active.getD j false = true ∧
        now - q.lifetimes.getD j 0 > q.maxLifetime
    · rw [if_pos h1] at hmem
      obtain ⟨m1, m2, m3⟩ := ih ((q.Deactivate j).2) i hndr hmem
      have hji : j ≠ i := fun hc => hjr (hc ▸ m1)
      obtain ⟨f1, _, f3, f4, _, _, _⟩ := Deactivate_fields q j
      obtain ⟨e1, _⟩ := Deactivate_getD_ne q hji
      refine ⟨List.mem_cons_of_mem j m1, ?_, ?_⟩
      · rw [← e1]; exact m2
      · rw [← f1, ← f3, ← f4]; exact m3
    · rw [if_neg h1] at hmem
      by_cases h2 : q.active.getD j false = true
      · rw [if_pos h2] at hmem
        rcases List.mem_cons.mp hmem with rfl | hmem2
        · refine ⟨List.mem_cons_self i _, h2, fun ⟨he, ho⟩ => h1 ⟨he, h2, ho⟩⟩
        · obtain ⟨m1, m2, m3⟩ := ih q i hndr hmem2
          exact ⟨List.mem_cons_of_mem j m1, m2, m3⟩
      · rw [if_neg h2] at hmem
        obtain ⟨m1, m2, m3⟩ := ih q i hndr hmem
        exact ⟨List.mem_cons_of_mem j m1, m2, m3⟩

/-- Claim C9: with lifetime enforcement on and a structurally sound pool,
a call to Update (or UpdateWith) deactivates and clears every active slot
whose age exceeds the maximum lifetime and excludes it from the working
active set, while every active slot within its lifetime stays active and is
collected into the working active set (the set that Update batch-integrates
and, unless collisions are disabled, feeds to the pairwise collision pass). -/
theorem claim_C9 (p : Pool) (now : ℝ) (frame : Vector) (c dt φ : ℝ)
    (others : List Particle) (henf : p.enforceLifetime = true)
    (hInv : PoolInv p) :
    (∀ i, i ∈ (p.collectActive now).2 ↔
      (i < p.particles.length ∧ p.active.getD i false = true ∧
        ¬(now - p.lifetimes.getD i 0 > p.maxLifetime))) ∧
    (∀ i, p.active.getD i false = true →
      now - p.lifetimes.getD i 0 > p.maxLifetime →
      ((p.Update now frame c dt φ).active.getD i false = false ∧
       (p.Update now frame c dt φ).particles.getD i none = none ∧
       (p.UpdateWith now frame c dt φ others).active.getD i false = false ∧
       (p.UpdateWith now frame c dt φ others).particles.getD i none =
         none)) ∧
    (∀ i, p.active.getD i false = true →
      ¬(now - p.lifetimes.getD i 0 > p.maxLifetime) →
      ((p.Update now frame c dt φ).active.getD i false = true ∧
       (p.UpdateWith now frame c dt φ others).active.getD i false = true ∧
       i ∈ (p.collectActive now).2)) := by
  obtain ⟨hl1, _, _, _⟩ := hInv
  have hnd : (List.range p.particles.length).Nodup :=
    List.nodup_range p.particles.length
  have hmem_iff : ∀ i, i ∈ (p.collectActive now).2 ↔
      (i < p.particles.length ∧ p.active.getD i false = true ∧
        ¬(now - p.lifetimes.getD i 0 > p.maxLifetime)) := by
    intro i
    constructor
    · intro hmem
      obtain ⟨m1, m2, m3⟩ := go_mem_rev now _ p i hnd hmem
      refine ⟨List.mem_range.mp m1, m2, fun ho => m3 ⟨henf, ho⟩⟩
    · rintro ⟨hlt, hact, hno⟩
      exact (go_survivor now _ p i hnd (List.mem_range.mpr hlt) hact
        fun ⟨_, ho⟩ => hno ho).2
  refine ⟨hmem_iff, ?_, ?_⟩
  · intro i hact hover
    have hlt : i < p.particles.length := hl1 ▸ lt_of_getD_true hact
    obtain ⟨g1, g2⟩ := go_expired now _ p i hnd (List.mem_range.mpr hlt)
      henf hact hover
    have hnotmem : i ∉ (p.collectActive now).2 := fun hc =>
      ((hmem_iff i).mp hc).2.2 hover
    obtain ⟨vals, hvals⟩ := Update_particles_scatter p now frame c dt φ
    obtain ⟨valsW, hvalsW⟩ :=
      UpdateWith_particles_scatter p now frame c dt φ others
    refine ⟨?_, ?_, ?_, ?_⟩
    · rw [Update_active]; exact g1
    · rw [hvals, scatter_not_mem _ _ _ _ hnotmem]; exact g2
    · rw [UpdateWith_active]; exact g1
    · rw [hvalsW, scatter_not_mem _ _ _ _ hnotmem]; exact g2
  · intro i hact hno
    have hlt : i < p.particles.length := hl1 ▸ lt_of_getD_true hact
    obtain ⟨g1, g2⟩ := go_survivor now _ p i hnd (List.mem_range.mpr hlt)
      hact (fun ⟨_, ho⟩ => hno ho)
    refine ⟨?_, ?_, g2⟩
    · rw [Update_active]; exact g1
    · rw [UpdateWith_active]; exact g1

/-- Witness for claim C9 at a concrete lifetime-enforcing pool. -/
theorem claim_C9_witness :
    ((NewPool 1).EnforceLifetime 5).enforceLifetime = true ∧
    PoolInv ((NewPool 1).EnforceLifetime 5) ∧
    (0 ∈ ((((NewPool 1).EnforceLifetime 5).collectActive 0).2) ↔
      (0 < ((NewPool 1).EnforceLifetime 5).particles.length ∧
       ((NewPool 1).EnforceLifetime 5).active.getD 0 false = true ∧
       ¬((0 : ℝ) - ((NewPool 1).EnforceLifetime 5).lifetimes.getD 0 0 >
         ((NewPool 1).EnforceLifetime 5).maxLifetime))) :=
  ⟨rfl, PoolInv_NewPool 1,
   (claim_C9 ((NewPool 1).EnforceLifetime 5) 0 Vector.zero 1 1 1 [] rfl
     (PoolInv_NewPool 1)).1 0⟩

/-! ### Claim C10: zero relative speed degenerate case -/

/-- Claim C10: the Lorentz factor of a zero relative speed is exactly 1 for
every c > 0, the reference axis (angle) of a zero relative velocity is
exactly 0, and Particle.Update called with velocity equal to the frame
velocity stores gamma exactly 1. -/
theorem claim_C10 :
    (∀ c : ℝ, 0 < c → Gamma 0 c = 1) ∧
    (∀ v : Vector, (v.Sub v).Angle = 0) ∧
    (∀ (p : Particle) (force frame : Vector) (c dt : ℝ), 0 < c →
      p.Vel = frame → (p.Update force frame c dt).Gamma = 1) := by
  refine ⟨fun c _ => Gamma_zero c, ?_, ?_⟩
  · intro v
    rw [Vector.Sub_self]
    show Complex.arg ⟨0, 0⟩ = 0
    rw [show (⟨0, 0⟩ : ℂ) = 0 from Complex.ext rfl rfl]
    exact Complex.arg_zero
  · intro p force frame c dt hc hveq
    rw [update_Gamma, hveq, Vector.Sub_self, Vector.Mag_zero, Gamma_zero]

/-- Witness for claim C10 at c = 1 and a particle at rest in the frame. -/
theorem claim_C10_witness :
    0 < (1 : ℝ) ∧ Gamma 0 1 = 1 ∧
    ((default : Particle).Update Vector.zero Vector.zero 1 1).Gamma = 1 :=
  ⟨by norm_num, claim_C10.1 1 (by norm_num),
   claim_C10.2.2 default Vector.zero Vector.zero 1 1 (by norm_num) rfl⟩

end RelAsteroids
